import Mathlib

/-! # apcore: outbound federation transport (`framework/conn/transport.go`)

A shallow embedding of the transport controller and the signed transport of
apcore, followed by theorems about configuration validation and about the
effects a delivery or a fetch performs on its collaborators.  The anonymized
node statistics of `services/nodeinfo.go` and the Follow replies of
`framework/framework.go` are embedded in the same way.

Conventions of the embedding.

* A Go `error` is its message; `nil` is `none`.  `fmt.Errorf` with `%s` and
  `%d` verbs is string concatenation (`%d` prints the decimal form of an
  integer).
* A Go function returning `(value, error)` whose body may leave both set (or
  both unset) returns a pair of options; an external call whose value is
  ignored by the caller on error returns `Except`.
* Collaborators that live outside `transport.go` (the HTTP client, the
  signer, the host limiter, the delivery-attempt ledger, the clock) are the
  fields of `Env`; each takes and returns an abstract collaborator state.
* Every call to a collaborator is recorded, in program order, in the trace of
  the `World`.
-/

namespace Apcore

/-! ## Messages -/

/-- The message `msg` contains `part` as a contiguous piece. -/
def Mentions (msg part : String) : Prop := part.data <:+: msg.data

instance (msg part : String) : Decidable (Mentions msg part) := by
  unfold Mentions; infer_instance

/-! ## Configuration -/

namespace httpsig

/-- The Go type `httpsig.Algorithm` is a defined string type. -/
abbrev Algorithm := String

/-- The Go type `httpsig.DigestAlgorithm` is a defined string type. -/
abbrev DigestAlgorithm := String

/-- The constant `httpsig.RequestTarget`. -/
def RequestTarget : String := "(request-target)"

end httpsig

namespace config

/-- Modelled from the spec: package `config` is not among the sources; these
are the fields `NewController` reads (acceptable signature algorithms, digest
algorithm, required-header lists for fetch and delivery). -/
structure HttpSignaturesConfig where
  Algorithms : List String
  DigestAlgorithm : String
  GetHeaders : List String
  PostHeaders : List String
  deriving DecidableEq, Repr

/-- Modelled from the spec: package `config` is not among the sources; the
outbound rate-limit qps is a number compared with zero (a rational here), the
burst is an integer. -/
structure ActivityPubConfig where
  OutboundRateLimitQPS : ℚ
  OutboundRateLimitBurst : Int
  HttpSignaturesConfig : config.HttpSignaturesConfig
  deriving DecidableEq

/-- Modelled from the spec: the part of `config.Config` the transport reads. -/
structure Config where
  ActivityPubConfig : config.ActivityPubConfig
  deriving DecidableEq

end config

/-- Modelled from the spec: `hostLimiter` is declared outside `transport.go`;
it is the registry of per-host token buckets with capacity = burst and refill
rate = qps. -/
structure hostLimiter where
  qps : ℚ
  burst : Int
  deriving DecidableEq

/-- Modelled from the spec: `newHostLimiter` builds the registry from the
configured qps and burst. -/
def newHostLimiter (c : config.Config) : hostLimiter :=
  { qps := c.ActivityPubConfig.OutboundRateLimitQPS
    burst := c.ActivityPubConfig.OutboundRateLimitBurst }

/-- The function `containsRequiredHttpHeaders`: the three flags after the loop over
`headers`, started from `(hasRequestTarget, hasDate, hasDigest)`. -/
def requiredHeaderFlags (method : String) (headers : List String)
    (init : Bool × Bool × Bool) : Bool × Bool × Bool :=
  headers.foldl
    (fun flags header =>
      (flags.1 || header == httpsig.RequestTarget,
       flags.2.1 || header == "Date",
       method == "GET" || flags.2.2 || header == "Digest"))
    init

/-- The function `containsRequiredHttpHeaders`. -/
def containsRequiredHttpHeaders (method : String) (headers : List String) : Option String :=
  let flags := requiredHeaderFlags method headers (false, false, false)
  let hasRequestTarget := flags.1
  let hasDate := flags.2.1
  let hasDigest := flags.2.2
  if !hasRequestTarget then
    some ("missing http header for " ++ method ++ ": " ++ httpsig.RequestTarget)
  else if !hasDate then
    some ("missing http header for " ++ method ++ ": Date")
  else if !hasDigest then
    some ("missing http header for " ++ method ++ ": Digest")
  else
    none

/-- The struct `Controller`: the fields set from the configuration.  The
application, clock, HTTP client, ledger and retrier handles it also stores are
the collaborators of `Env`. -/
structure Controller where
  algs : List httpsig.Algorithm
  digestAlg : httpsig.DigestAlgorithm
  getHeaders : List String
  postHeaders : List String
  hl : hostLimiter
  deriving DecidableEq

/-- The function `NewController`.  `IsSupportedDigestAlgorithm` is
`httpsig.IsSupportedDigestAlgorithm`.  The result is the pair `(tc, err)` of
named results. -/
def NewController (IsSupportedDigestAlgorithm : String → Bool) (c : config.Config) :
    Option Controller × Option String :=
  if c.ActivityPubConfig.OutboundRateLimitQPS ≤ 0 then
    (none, some "outbound rate limit qps is <= 0")
  else if c.ActivityPubConfig.OutboundRateLimitBurst ≤ 0 then
    (none, some "outbound rate limit burst is <= 0")
  else if c.ActivityPubConfig.HttpSignaturesConfig.Algorithms.length = 0 then
    (none, some "no httpsig algorithms specified")
  else
    let err := containsRequiredHttpHeaders "GET" c.ActivityPubConfig.HttpSignaturesConfig.GetHeaders
    if err ≠ none then (none, err)
    else
      let err := containsRequiredHttpHeaders "POST" c.ActivityPubConfig.HttpSignaturesConfig.PostHeaders
      if err ≠ none then (none, err)
      else if !IsSupportedDigestAlgorithm c.ActivityPubConfig.HttpSignaturesConfig.DigestAlgorithm then
        (none, some ("unsupported digest algorithm: " ++
          c.ActivityPubConfig.HttpSignaturesConfig.DigestAlgorithm))
      else
        let algos : List httpsig.Algorithm :=
          c.ActivityPubConfig.HttpSignaturesConfig.Algorithms.map (fun algo => algo)
        let ct : Controller :=
          { algs := algos
            digestAlg := c.ActivityPubConfig.HttpSignaturesConfig.DigestAlgorithm
            getHeaders := c.ActivityPubConfig.HttpSignaturesConfig.GetHeaders
            postHeaders := c.ActivityPubConfig.HttpSignaturesConfig.PostHeaders
            hl := newHostLimiter c }
        (some ct, err)

/-- The method `Controller.GetFirstAlgorithm`: `tc.algs[0]`, undefined
(a run-time panic) on an empty list. -/
def Controller.GetFirstAlgorithm (tc : Controller) : Option httpsig.Algorithm :=
  tc.algs[0]?

/-! ## Data passed to and from the collaborators -/

/-- A Go byte slice. -/
abbrev Bytes := List Nat

namespace paths

/-- The Go type `paths.UUID` is a defined string type. -/
abbrev UUID := String

end paths

namespace url

/-- A parsed `*url.URL`: what its `String()` method prints, and its `Host`. -/
structure URL where
  text : String
  Host : String
  deriving DecidableEq, Repr

/-- The method `(*url.URL).String`. -/
def URL.String (u : URL) : String := u.text

end url

deriving instance DecidableEq for Except

/-- A `context.Context`: an identity, and what `util.Context.UserPathUUID`
finds in it (the origin actor, or the error of the lookup). -/
structure Context where
  id : Nat
  UserPathUUID : Except String paths.UUID
  deriving DecidableEq

/-- The context `context.Background()`. -/
def Context.Background : Context :=
  { id := 0, UserPathUUID := .error "no user path UUID in context" }

namespace http

/-- An `*http.Request`: method, URL, headers in the order added, body, and the
context the request is bound to. -/
structure Request where
  Method : String
  URL : url.URL
  Header : List (String × String)
  Body : Option Bytes
  ctx : Context
  deriving DecidableEq

/-- The method `(*http.Request).WithContext`: a copy of the request bound to
`c`; the receiver is left as it is. -/
def Request.WithContext (r : Request) (c : Context) : Request := { r with ctx := c }

/-- The method `http.Header.Add` on the headers of a request. -/
def Request.HeaderAdd (r : Request) (key value : String) : Request :=
  { r with Header := r.Header ++ [(key, value)] }

/-- An `*http.Response`: status code, status line and a handle on the body
stream. -/
structure Response where
  StatusCode : Int
  Status : String
  Body : Nat
  deriving DecidableEq

/-- The constant `http.StatusOK`. -/
def StatusOK : Int := 200

/-- The constant `http.StatusCreated`. -/
def StatusCreated : Int := 201

/-- The constant `http.StatusAccepted`. -/
def StatusAccepted : Int := 202

/-- The function `http.NewRequest`: parses the address and returns a request
bound to the background context; `parse` is `url.Parse`. -/
def NewRequest (parse : String → Except String url.URL) (method : String) (address : String)
    (body : Option Bytes) : Except String Request :=
  match parse address with
  | .error e => .error e
  | .ok u => .ok { Method := method, URL := u, Header := [], Body := body,
                   ctx := Context.Background }

end http

/-- The two signer mutexes of a transport. -/
inductive SignerMu where
  | getSignerMu
  | postSignerMu
  deriving DecidableEq, Repr

/-- A `*sync.Mutex` of a transport: the transport that allocated it and which
of its two mutexes it is. -/
structure Mutex where
  owner : Nat
  which : SignerMu
  deriving DecidableEq, Repr

/-- An `httpsig.Signer` as built by `httpsig.NewSigner` from the
algorithm preferences, the digest algorithm and the headers to sign. -/
structure Signer where
  algs : List httpsig.Algorithm
  digestAlg : httpsig.DigestAlgorithm
  headers : List String
  deriving DecidableEq, Repr

/-- One call made on a collaborator. -/
inductive Event where
  | insertAttempt (c : Context) (fromUUID : paths.UUID) (to_ : url.URL) (payload : Bytes)
  | markSuccess (c : Context) (id : String)
  | markFailure (c : Context) (id : String)
  | lock (m : Mutex)
  | unlock (m : Mutex)
  | signRequest (s : Signer) (pubKeyId : String) (req : http.Request) (body : Option Bytes)
  | wait (c : Context) (host : String)
  | clientDo (req : http.Request)
  | bodyClose (body : Nat)
  | readAll (body : Nat)
  | errorLog (msg : String)
  deriving DecidableEq

/-- The collaborators of the transport.  `σ` is their joint state. -/
structure Env (σ : Type) where
  /-- The function `url.Parse`, as used by `http.NewRequest`. -/
  Parse : String → Except String url.URL
  /-- The call `t.clock.Now().UTC().Format("Mon, 02 Jan 2006 15:04:05")`. -/
  Now : σ → String
  /-- The call `web.UserAgent(t.a.Software())`. -/
  UserAgent : String
  /-- The method `httpsig.Signer.SignRequest`: the request with the signature headers
  added, and the error. -/
  SignRequest : Signer → String → String → http.Request → Option Bytes → σ →
    (http.Request × Option String) × σ
  /-- The call `tc.hl.Get(host).Wait(c)`. -/
  Wait : Context → String → σ → Option String × σ
  /-- The method `(*http.Client).Do`. -/
  Do : http.Request → σ → Except String http.Response × σ
  /-- The method `resp.Body.Close`. -/
  Close : Nat → σ → σ
  /-- The function `ioutil.ReadAll`. -/
  ReadAll : Nat → σ → (Bytes × Option String) × σ
  /-- The method `services.DeliveryAttempts.InsertAttempt`. -/
  InsertAttempt : Context → paths.UUID → url.URL → Bytes → σ → Except String String × σ
  /-- The method `services.DeliveryAttempts.MarkSuccessfulAttempt`. -/
  MarkSuccessfulAttempt : Context → String → σ → Option String × σ
  /-- The method `services.DeliveryAttempts.MarkRetryFailureAttempt`. -/
  MarkRetryFailureAttempt : Context → String → σ → Option String × σ

/-- The state of the collaborators and the calls made on them so far, oldest
first. -/
structure World (σ : Type) where
  st : σ
  trace : List Event
  deriving DecidableEq

/-- Record one call. -/
def World.emit {σ : Type} (w : World σ) (e : Event) : World σ :=
  { w with trace := w.trace ++ [e] }

/-- The constant `activityStreamsContentType`. -/
def activityStreamsContentType : String :=
  "application/ld+json; profile=\"https://www.w3.org/ns/activitystreams\""

/-- The method `Controller.wait`. -/
def Controller.wait {σ : Type} (env : Env σ) (_tc : Controller) (c : Context) (host : String)
    (w : World σ) : Option String × World σ :=
  let r := env.Wait c host w.st
  (r.1, { st := r.2, trace := w.trace ++ [Event.wait c host] })

/-- The method `Controller.insertAttempt`. -/
def Controller.insertAttempt {σ : Type} (env : Env σ) (_tc : Controller) (c : Context)
    (payload : Bytes) (to_ : url.URL) (fromUUID : paths.UUID) (w : World σ) :
    Except String String × World σ :=
  let r := env.InsertAttempt c fromUUID to_ payload w.st
  (r.1, { st := r.2, trace := w.trace ++ [Event.insertAttempt c fromUUID to_ payload] })

/-- The method `Controller.markSuccess`. -/
def Controller.markSuccess {σ : Type} (env : Env σ) (_tc : Controller) (c : Context)
    (id : String) (w : World σ) : Option String × World σ :=
  let r := env.MarkSuccessfulAttempt c id w.st
  (r.1, { st := r.2, trace := w.trace ++ [Event.markSuccess c id] })

/-- The method `Controller.markFailure`. -/
def Controller.markFailure {σ : Type} (env : Env σ) (_tc : Controller) (c : Context)
    (id : String) (w : World σ) : Option String × World σ :=
  let r := env.MarkRetryFailureAttempt c id w.st
  (r.1, { st := r.2, trace := w.trace ++ [Event.markFailure c id] })

/-- The struct `transport`.  The application, clock and client handles are the
collaborators of `Env`. -/
structure transport where
  getSigner : Signer
  postSigner : Signer
  getSignerMu : Mutex
  postSignerMu : Mutex
  privKey : String
  pubKeyId : String
  tc : Controller
  deriving DecidableEq

/-- The function `newTransport`; `fresh` identifies the two mutexes it
allocates. -/
def newTransport (fresh : Nat) (getSigner postSigner : Signer) (privKey : String)
    (pubKeyId : String) (tc : Controller) : Option transport × Option String :=
  (some { getSigner := getSigner
          postSigner := postSigner
          getSignerMu := { owner := fresh, which := SignerMu.getSignerMu }
          postSignerMu := { owner := fresh, which := SignerMu.postSignerMu }
          privKey := privKey
          pubKeyId := pubKeyId
          tc := tc }, none)

/-- The method `transport.userAgent`. -/
def transport.userAgent {σ : Type} (env : Env σ) (_t : transport) : String :=
  env.UserAgent

/-- The method `transport.date`. -/
def transport.date {σ : Type} (env : Env σ) (_t : transport) (w : World σ) : String :=
  env.Now w.st ++ " GMT"

/-- The method `transport.handleDereferenceResponse`. -/
def transport.handleDereferenceResponse (_t : transport) (r : http.Response) (iri : url.URL) :
    Option String :=
  let ok := r.StatusCode == http.StatusOK
  if !ok then
    some ("url IRI dereference [" ++ iri.String ++ "] failed with status (" ++
      toString r.StatusCode ++ "): " ++ r.Status)
  else
    none

/-- The method `transport.handleDeliverResponse`. -/
def transport.handleDeliverResponse (_t : transport) (r : http.Response) (iri : url.URL) :
    Option String :=
  let ok := r.StatusCode == http.StatusOK ||
    r.StatusCode == http.StatusCreated ||
    r.StatusCode == http.StatusAccepted
  if !ok then
    some ("delivery [" ++ iri.String ++ "] failed with status (" ++
      toString r.StatusCode ++ "): " ++ r.Status)
  else
    none

/-- The signing step shared by both methods: lock the signer mutex, call
`SignRequest`, unlock. -/
def transport.lockedSign {σ : Type} (env : Env σ) (t : transport) (mu : Mutex) (signer : Signer)
    (req : http.Request) (body : Option Bytes) (w : World σ) :
    (http.Request × Option String) × World σ :=
  let w := w.emit (Event.lock mu)
  let r := env.SignRequest signer t.privKey t.pubKeyId req body w.st
  let w : World σ :=
    { st := r.2, trace := w.trace ++ [Event.signRequest signer t.pubKeyId req body] }
  let w := w.emit (Event.unlock mu)
  (r.1, w)

/-- The deferred call `resp.Body.Close()`. -/
def bodyClose {σ : Type} (env : Env σ) (resp : http.Response) (w : World σ) : World σ :=
  { st := env.Close resp.Body w.st, trace := w.trace ++ [Event.bodyClose resp.Body] }

/-- The method `transport.Dereference` up to and including `t.client.Do(req)`:
the error of an early return, or the response. -/
def transport.dereferenceSend {σ : Type} (env : Env σ) (t : transport) (c : Context)
    (iri : url.URL) (w : World σ) : Except String http.Response × World σ :=
  match http.NewRequest env.Parse "GET" iri.String none with
  | .error e => (.error e, w)
  | .ok req =>
    let _discarded := req.WithContext c
    let req := req.HeaderAdd "Accept" activityStreamsContentType
    let req := req.HeaderAdd "Accept-Charset" "utf-8"
    let req := req.HeaderAdd "Date" (t.date env w)
    let req := req.HeaderAdd "User-Agent" (t.userAgent env)
    match t.lockedSign env t.getSignerMu t.getSigner req none w with
    | ((_, some e), w) => (.error e, w)
    | ((req, none), w) =>
      match t.tc.wait env c req.URL.Host w with
      | (some e, w) => (.error e, w)
      | (none, w) =>
        let r := env.Do req w.st
        (r.1, { st := r.2, trace := w.trace ++ [Event.clientDo req] })

/-- The method `transport.Dereference`; the result is the pair `(b, err)` of
named results. -/
def transport.Dereference {σ : Type} (env : Env σ) (t : transport) (c : Context)
    (iri : url.URL) (w : World σ) : (Option Bytes × Option String) × World σ :=
  match t.dereferenceSend env c iri w with
  | (.error e, w) => ((none, some e), w)
  | (.ok resp, w) =>
    match t.handleDereferenceResponse resp iri with
    | some e => ((none, some e), bodyClose env resp w)
    | none =>
      let r := env.ReadAll resp.Body w.st
      let w : World σ := { st := r.2, trace := w.trace ++ [Event.readAll resp.Body] }
      ((some r.1.1, r.1.2), bodyClose env resp w)

/-- The method `transport.Deliver` up to and including `t.client.Do(req)`: the
error of an early return, or the id of the inserted attempt and the
response. -/
def transport.deliverSend {σ : Type} (env : Env σ) (t : transport) (c : Context) (b : Bytes)
    (to_ : url.URL) (w : World σ) : Except String (String × http.Response) × World σ :=
  let uc := c
  match uc.UserPathUUID with
  | .error e => (.error ("failed to determine user to deliver on behalf of: " ++ e), w)
  | .ok fromUUID =>
    match t.tc.insertAttempt env uc b to_ fromUUID w with
    | (.error e, w) => (.error ("failed to create delivery attempt: " ++ e), w)
    | (.ok attemptId, w) =>
      let byteCopy := b
      match http.NewRequest env.Parse "POST" to_.String (some byteCopy) with
      | .error e => (.error e, w)
      | .ok req =>
        let _discarded := req.WithContext c
        let req := req.HeaderAdd "Content-Type" activityStreamsContentType
        let req := req.HeaderAdd "Accept-Charset" "utf-8"
        let req := req.HeaderAdd "Date" (t.date env w)
        let req := req.HeaderAdd "User-Agent" (t.userAgent env)
        match t.lockedSign env t.postSignerMu t.postSigner req (some b) w with
        | ((_, some e), w) => (.error e, w)
        | ((req, none), w) =>
          match t.tc.wait env c req.URL.Host w with
          | (some e, w) => (.error e, w)
          | (none, w) =>
            match env.Do req w.st with
            | (.error e, s) => (.error e, { st := s, trace := w.trace ++ [Event.clientDo req] })
            | (.ok resp, s) =>
              (.ok (attemptId, resp), { st := s, trace := w.trace ++ [Event.clientDo req] })

/-- The method `transport.Deliver`: the steps of `deliverSend`, then the
response is examined and the attempt is marked; `resp.Body.Close()` runs
last, being deferred. -/
def transport.Deliver {σ : Type} (env : Env σ) (t : transport) (c : Context) (b : Bytes)
    (to_ : url.URL) (w : World σ) : Option String × World σ :=
  let uc := c
  match t.deliverSend env c b to_ w with
  | (.error e, w) => (some e, w)
  | (.ok (attemptId, resp), w) =>
    match t.handleDeliverResponse resp to_ with
    | some err =>
      match t.tc.markFailure env uc attemptId w with
      | (some err2, w) =>
        (some ("failed delivery and failed to mark as failure (" ++ attemptId ++
          "): [" ++ err ++ ", " ++ err2 ++ "]"), bodyClose env resp w)
      | (none, w) => (some err, bodyClose env resp w)
    | none =>
      match t.tc.markSuccess env uc attemptId w with
      | (some e, w) =>
        (some ("failed to mark delivery as successful (" ++ attemptId ++ "): " ++ e),
          bodyClose env resp w)
      | (none, w) => (none, bodyClose env resp w)

/-! ## Classifying the calls of a trace -/

/-- The call is a ledger insert. -/
def Event.isInsert : Event → Bool
  | .insertAttempt _ _ _ _ => true
  | _ => false

/-- The call touches the delivery ledger. -/
def Event.isLedger : Event → Bool
  | .insertAttempt _ _ _ _ => true
  | .markSuccess _ _ => true
  | .markFailure _ _ => true
  | _ => false

/-- The call marks a ledger entry failed. -/
def Event.isMarkFailure : Event → Bool
  | .markFailure _ _ => true
  | _ => false

/-! ## The construction requirements, as the specification lists them -/

/-- The six requirements `NewController` places on a configuration. -/
inductive Requirement where
  | qps
  | burst
  | algorithms
  | getHeaders
  | postHeaders
  | digestAlgorithm
  deriving DecidableEq, Repr

/-- The configuration meets the requirement. -/
def Requirement.holds (sup : String → Bool) (c : config.Config) : Requirement → Prop
  | .qps => 0 < c.ActivityPubConfig.OutboundRateLimitQPS
  | .burst => 0 < c.ActivityPubConfig.OutboundRateLimitBurst
  | .algorithms => c.ActivityPubConfig.HttpSignaturesConfig.Algorithms ≠ []
  | .getHeaders =>
      "(request-target)" ∈ c.ActivityPubConfig.HttpSignaturesConfig.GetHeaders ∧
      "Date" ∈ c.ActivityPubConfig.HttpSignaturesConfig.GetHeaders
  | .postHeaders =>
      "(request-target)" ∈ c.ActivityPubConfig.HttpSignaturesConfig.PostHeaders ∧
      "Date" ∈ c.ActivityPubConfig.HttpSignaturesConfig.PostHeaders ∧
      "Digest" ∈ c.ActivityPubConfig.HttpSignaturesConfig.PostHeaders
  | .digestAlgorithm => sup c.ActivityPubConfig.HttpSignaturesConfig.DigestAlgorithm = true

/-- The error message names the violated field: the rate-limit qps, the burst,
the algorithms, the method together with a required header that is missing from
its list, or the offending digest algorithm. -/
def Requirement.namedBy (c : config.Config) : Requirement → String → Prop
  | .qps, msg => Mentions msg "qps"
  | .burst, msg => Mentions msg "burst"
  | .algorithms, msg => Mentions msg "algorithms"
  | .getHeaders, msg =>
      Mentions msg "GET" ∧
      ∃ h ∈ ["(request-target)", "Date"],
        h ∉ c.ActivityPubConfig.HttpSignaturesConfig.GetHeaders ∧ Mentions msg h
  | .postHeaders, msg =>
      Mentions msg "POST" ∧
      ∃ h ∈ ["(request-target)", "Date", "Digest"],
        h ∉ c.ActivityPubConfig.HttpSignaturesConfig.PostHeaders ∧ Mentions msg h
  | .digestAlgorithm, msg =>
      Mentions msg c.ActivityPubConfig.HttpSignaturesConfig.DigestAlgorithm

/-! ## Sample inputs -/

/-- A configuration that meets every construction requirement. -/
def sampleConfig : config.Config :=
  { ActivityPubConfig :=
      { OutboundRateLimitQPS := 1
        OutboundRateLimitBurst := 1
        HttpSignaturesConfig :=
          { Algorithms := ["rsa-sha256", "rsa-sha512"]
            DigestAlgorithm := "SHA-256"
            GetHeaders := ["(request-target)", "Date"]
            PostHeaders := ["(request-target)", "Date", "Digest"] } } }

/-- A stand-in for `httpsig.IsSupportedDigestAlgorithm`. -/
def sampleSupported (alg : String) : Bool := alg == "SHA-256" || alg == "SHA-512"

/-- The sample configuration with a POST header list that lacks `Digest`. -/
def noDigestConfig : config.Config :=
  { ActivityPubConfig :=
      { OutboundRateLimitQPS := 1
        OutboundRateLimitBurst := 1
        HttpSignaturesConfig :=
          { Algorithms := ["rsa-sha256", "rsa-sha512"]
            DigestAlgorithm := "SHA-256"
            GetHeaders := ["(request-target)", "Date"]
            PostHeaders := ["(request-target)", "Date"] } } }

/-- A stand-in for `url.Parse` that knows five addresses. -/
def sampleParse (a : String) : Except String url.URL :=
  if a = "https://a.example/inbox" then .ok { text := a, Host := "a.example" }
  else if a = "https://b.example/inbox" then .ok { text := a, Host := "b.example" }
  else if a = "https://c.example/inbox" then .ok { text := a, Host := "c.example" }
  else if a = "https://down.example/inbox" then .ok { text := a, Host := "down.example" }
  else if a = "https://ok.example/actor" then .ok { text := a, Host := "ok.example" }
  else .error "invalid URI for request"

/-- A stand-in for the remote servers and the ledger.  Host `down.example`
refuses connections, `b.example` answers 500, `ok.example` answers 200 and every
other host answers 201.  The state counts the ledger rows inserted; marking a
row fails when `markFails` is set. -/
def sampleEnv (markFails : Bool) : Env Nat :=
  { Parse := sampleParse
    Now := fun _ => "Mon, 02 Nov 2026 10:00:00"
    UserAgent := "sample (go-fed/activity apcore)"
    SignRequest := fun _ _ keyId req _ s =>
      ((req.HeaderAdd "Signature" keyId, none), s)
    Wait := fun _ _ s => (none, s)
    Do := fun req s =>
      if req.URL.Host = "down.example" then (.error "dial tcp: connection refused", s)
      else if req.URL.Host = "b.example" then
        (.ok { StatusCode := 500, Status := "500 Internal Server Error", Body := 7 }, s)
      else if req.URL.Host = "ok.example" then
        (.ok { StatusCode := 200, Status := "200 OK", Body := 7 }, s)
      else (.ok { StatusCode := 201, Status := "201 Created", Body := 7 }, s)
    Close := fun _ s => s
    ReadAll := fun _ s => (([123, 125], none), s)
    InsertAttempt := fun _ _ _ _ s => (.ok ("attempt-" ++ toString s), s + 1)
    MarkSuccessfulAttempt := fun _ _ s =>
      (if markFails then some "ledger unavailable" else none, s)
    MarkRetryFailureAttempt := fun _ _ s =>
      (if markFails then some "ledger unavailable" else none, s) }

/-- A transport as `newTransport` builds it, on the controller of `sampleConfig`. -/
def sampleTransport : transport :=
  { getSigner := { algs := ["rsa-sha256", "rsa-sha512"], digestAlg := "SHA-256",
                   headers := ["(request-target)", "Date"] }
    postSigner := { algs := ["rsa-sha256", "rsa-sha512"], digestAlg := "SHA-256",
                    headers := ["(request-target)", "Date", "Digest"] }
    getSignerMu := { owner := 1, which := SignerMu.getSignerMu }
    postSignerMu := { owner := 1, which := SignerMu.postSignerMu }
    privKey := "private key"
    pubKeyId := "https://me.example/users/alice#main-key"
    tc := { algs := ["rsa-sha256", "rsa-sha512"]
            digestAlg := "SHA-256"
            getHeaders := ["(request-target)", "Date"]
            postHeaders := ["(request-target)", "Date", "Digest"]
            hl := { qps := 1, burst := 1 } } }

/-- A context that carries the origin actor `alice`. -/
def aliceContext : Context := { id := 1, UserPathUUID := .ok "alice" }

/-- A context that carries no origin actor. -/
def anonymousContext : Context := { id := 2, UserPathUUID := .error "no user path UUID set" }

/-- Recipient on a host that answers 201. -/
def inboxA : url.URL := { text := "https://a.example/inbox", Host := "a.example" }

/-- Recipient on a host that answers 500. -/
def inboxB : url.URL := { text := "https://b.example/inbox", Host := "b.example" }

/-- Recipient on a host that refuses connections. -/
def inboxDown : url.URL := { text := "https://down.example/inbox", Host := "down.example" }

/-- An address on a host that answers 200. -/
def actorOk : url.URL := { text := "https://ok.example/actor", Host := "ok.example" }

/-- The world before any call. -/
def emptyWorld : World Nat := { st := 0, trace := [] }

/-- A payload. -/
def samplePayload : Bytes := [123, 125]

/-! ## Contexts and mutexes in a trace -/

/-- The context a request handed to the HTTP client is bound to. -/
def Event.doCtx : Event → Option Context
  | .clientDo req => some req.ctx
  | _ => none

/-- The context a quota wait is called with. -/
def Event.waitCtx : Event → Option Context
  | .wait c _ => some c
  | _ => none

/-- The mutexes held after the calls of a trace, starting with `held`. -/
def heldAfter (held : List Mutex) : List Event → List Mutex
  | [] => held
  | .lock m :: es => heldAfter (m :: held) es
  | .unlock m :: es => heldAfter (held.erase m) es
  | _ :: es => heldAfter held es

/-- Every `SignRequest` call of the trace uses `signer` and is made while `mu`
is held, starting with `held`. -/
def signsUnder (mu : Mutex) (signer : Signer) : List Mutex → List Event → Bool
  | _, [] => true
  | held, .lock m :: es => signsUnder mu signer (m :: held) es
  | held, .unlock m :: es => signsUnder mu signer (held.erase m) es
  | held, .signRequest s _ _ _ :: es =>
      decide (mu ∈ held) && decide (s = signer) && signsUnder mu signer held es
  | held, _ :: es => signsUnder mu signer held es

/-- The sample collaborators with a signer that refuses to sign. -/
def signFailEnv : Env Nat :=
  { sampleEnv false with
    SignRequest := fun _ _ _ req _ s => ((req, some "unsupported key type"), s) }

/-! ## Anonymized node statistics (`services/nodeinfo.go`)

A `float64` is a rational number here: the arithmetic of `getWithUncertainty`
(two products, two sums, one rounding) is carried out exactly.  A `*rand.Rand`
is the list of the values its next `NormFloat64` calls return; a function that
draws returns `none` when the list ends before its loop does. -/

namespace services

/-- The struct `NodeInfoStats`. -/
structure NodeInfoStats where
  TotalUsers : Int
  ActiveHalfYear : Int
  ActiveMonth : Int
  ActiveWeek : Int
  NLocalPosts : Int
  NLocalComments : Int
  deriving DecidableEq, Repr

/-- The zero value of `NodeInfoStats`. -/
def NodeInfoStats.zero : NodeInfoStats :=
  { TotalUsers := 0, ActiveHalfYear := 0, ActiveMonth := 0, ActiveWeek := 0,
    NLocalPosts := 0, NLocalComments := 0 }

/-- The struct `NodeInfo`: the random source, the cache lifetime and the cache.
The database handles are the collaborators of `StatsEnv`; a `time.Time` is an
integer reading of the clock. -/
structure NodeInfo where
  Rand : List ℚ
  CacheInvalidated : Int
  cache : NodeInfoStats
  cacheSet : Bool
  cacheWhen : Int
  deriving DecidableEq

/-- The conversion `int(math.Round(val))`: the nearest integer, halves away
from zero. -/
def roundToInt (val : ℚ) : Int :=
  if 0 ≤ val then Rat.floor (val + 1 / 2) else -Rat.floor (-val + 1 / 2)

/-- The loop of `getWithUncertainty`, entered with the current `i` and the
draws that remain. -/
def getWithUncertaintyLoop (v : Int) (s1 s2 : ℚ) (max : Int) :
    Int → List ℚ → Option (Int × List ℚ)
  | i, d1 :: d2 :: rest =>
    if i < 0 ∧ (max ≤ 0 ∨ i < max) then
      let mu := d1 * s1 + (v : ℚ)
      let val := d2 * s2 + mu
      getWithUncertaintyLoop v s1 s2 max (roundToInt val) rest
    else
      some (i, d1 :: d2 :: rest)
  | i, draws =>
    if i < 0 ∧ (max ≤ 0 ∨ i < max) then none else some (i, draws)

/-- The method `NodeInfo.getWithUncertainty`. -/
def NodeInfo.getWithUncertainty (n : NodeInfo) (v : Int) (s1 s2 : ℚ) (max : Int) :
    Option (Int × NodeInfo) :=
  match getWithUncertaintyLoop v s1 s2 max (-1) n.Rand with
  | none => none
  | some (i, rest) => some (i, { n with Rand := rest })

/-- The method `NodeInfo.maybeGetWithUncertainty`. -/
def NodeInfo.maybeGetWithUncertainty (n : NodeInfo) (v : Int) (s1 s2 : ℚ) (max : Int) :
    Option (Int × NodeInfo) :=
  let threshold : Int := 50
  if v ≥ threshold then some (v, n)
  else n.getWithUncertainty v s1 s2 max

/-- The method `NodeInfo.applyNoise`. -/
def NodeInfo.applyNoise (n : NodeInfo) (t : NodeInfoStats) : Option (NodeInfoStats × NodeInfo) :=
  let uSDev : ℚ := 2
  let vSDev : ℚ := 1
  match n.maybeGetWithUncertainty t.TotalUsers uSDev vSDev (-1) with
  | none => none
  | some (x, n) =>
    let t := { t with TotalUsers := x }
    match n.maybeGetWithUncertainty t.ActiveHalfYear uSDev vSDev t.TotalUsers with
    | none => none
    | some (x, n) =>
      let t := { t with ActiveHalfYear := x }
      match n.maybeGetWithUncertainty t.ActiveMonth uSDev vSDev t.TotalUsers with
      | none => none
      | some (x, n) =>
        let t := { t with ActiveMonth := x }
        match n.maybeGetWithUncertainty t.ActiveWeek uSDev vSDev t.TotalUsers with
        | none => none
        | some (x, n) => some ({ t with ActiveWeek := x }, n)

/-- One call `GetAnonymizedStats` makes on a collaborator or on its mutex. -/
inductive StatsEvent where
  | rLock
  | rUnlock
  | lock
  | unlock
  | now
  | doInTx
  deriving DecidableEq, Repr

/-- The state of the collaborators of `NodeInfo` and the calls made so far,
oldest first. -/
structure StatsWorld (σ : Type) where
  st : σ
  trace : List StatsEvent
  deriving DecidableEq

/-- Record one call. -/
def StatsWorld.emit {σ : Type} (w : StatsWorld σ) (e : StatsEvent) : StatsWorld σ :=
  { w with trace := w.trace ++ [e] }

/-- A node with an empty cache whose random source returns 1, 1/2, -1, 1/4 and
then two zeros. -/
def sampleNode : NodeInfo :=
  { Rand := [1, 1 / 2, -1, 1 / 4, 0, 0]
    CacheInvalidated := 3600
    cache := NodeInfoStats.zero
    cacheSet := false
    cacheWhen := 0 }

/-- Statistics with two user counts at or above the threshold and two below. -/
def sampleStats : NodeInfoStats :=
  { TotalUsers := 120, ActiveHalfYear := 60, ActiveMonth := 20, ActiveWeek := 5,
    NLocalPosts := 40, NLocalComments := 5 }

end services

/-! ## Accepting and rejecting a Follow (`framework/framework.go`) -/

namespace vocab

/-- An element of an ActivityStreams property, as an iterator visits it: what
`pub.ToId` returns for it. -/
structure Item where
  ToId : Except String url.URL
  deriving DecidableEq

/-- A `vocab.ActivityStreamsFollow`: its object property and its actor
property, each `none` when the Follow does not have it (a nil property). -/
structure ActivityStreamsFollow where
  object : Option (List Item)
  actor : Option (List Item)
  deriving DecidableEq

/-- A `vocab.Type` read from the database. -/
inductive Value where
  | follow (f : ActivityStreamsFollow)
  | other (typeName : String)
  deriving DecidableEq

end vocab

/-- The Accept or Reject activity the framework builds. -/
structure Activity where
  typeName : String
  actor : List url.URL
  object : List url.URL
  to_ : List url.URL
  deriving DecidableEq

namespace paths

/-- The path keys of package `paths` used here. -/
inductive PathKey where
  | UserPathKey
  | OutboxPathKey
  | FollowersPathKey
  deriving DecidableEq, Repr

end paths

/-- One call the framework makes on a collaborator; a Send carries the error
it returned. -/
inductive FrameworkEvent where
  | dataGet (id : url.URL)
  | actorSend (c : Context) (outbox : url.URL) (t : Activity) (err : Option String)
  | prependItem (collection : url.URL) (item : url.URL)
  deriving DecidableEq

/-- The collaborators of the framework.  `σ` is their joint state. -/
structure FrameworkEnv (σ : Type) where
  /-- The function `paths.UUIDIRIFor`. -/
  UUIDIRIFor : String → String → paths.PathKey → paths.UUID → url.URL
  /-- The function `paths.UserIRIFor`. -/
  UserIRIFor : String → String → paths.PathKey → String → url.URL
  /-- The method `util.Context.WithUserPathUUID`: the context held afterwards. -/
  WithUserPathUUID : Context → paths.UUID → Context
  /-- The method `services.Data.Get`. -/
  DataGet : Context → url.URL → σ → Except String vocab.Value × σ
  /-- The function `util.ToActivityStreamsFollow`. -/
  ToActivityStreamsFollow : Context → vocab.Value → Except String vocab.ActivityStreamsFollow
  /-- The method `pub.FederatingActor.Send`: its error. -/
  ActorSend : Context → url.URL → Activity → σ → Option String × σ
  /-- The method `services.Followers.PrependItem`. -/
  PrependItem : Context → url.URL → url.URL → σ → Option String × σ

/-- The state of the collaborators of the framework and the calls made so far,
oldest first. -/
structure FrameworkWorld (σ : Type) where
  st : σ
  trace : List FrameworkEvent
  deriving DecidableEq

/-- How a method ends: it returns its error, or it panics. -/
inductive Outcome where
  | returned (err : Option String)
  | panicked
  deriving DecidableEq, Repr

/-- The struct `Framework`: the fields these methods read; `actorIsFederating`
is whether `f.actor` is a `pub.FederatingActor`. -/
structure Framework where
  scheme : String
  host : String
  actorIsFederating : Bool
  federationEnabled : Bool
  deriving DecidableEq, Repr

/-- The method `Framework.UserIRI`. -/
def Framework.UserIRI {σ : Type} (env : FrameworkEnv σ) (f : Framework) (userUUID : paths.UUID) :
    url.URL :=
  env.UUIDIRIFor f.scheme f.host paths.PathKey.UserPathKey userUUID

/-- The method `Framework.Send`. -/
def Framework.Send {σ : Type} (env : FrameworkEnv σ) (f : Framework) (c : Context)
    (userID : paths.UUID) (t : Activity) (w : FrameworkWorld σ) :
    Option String × FrameworkWorld σ :=
  let ctx := env.WithUserPathUUID c userID
  if !f.federationEnabled then
    (some "cannot Send: Framework.Send called when federation is not enabled", w)
  else if !f.actorIsFederating then
    (some "cannot Send: pub.Actor is not a pub.FederatingActor with federation enabled", w)
  else
    let outboxIRI := env.UUIDIRIFor f.scheme f.host paths.PathKey.OutboxPathKey userID
    let r := env.ActorSend ctx outboxIRI t w.st
    (r.1, { st := r.2, trace := w.trace ++ [FrameworkEvent.actorSend ctx outboxIRI t r.1] })

/-- The method `Framework.GetByIRI`. -/
def Framework.GetByIRI {σ : Type} (env : FrameworkEnv σ) (_f : Framework) (c : Context)
    (id : url.URL) (w : FrameworkWorld σ) : Except String vocab.Value × FrameworkWorld σ :=
  let r := env.DataGet c id w.st
  (r.1, { st := r.2, trace := w.trace ++ [FrameworkEvent.dataGet id] })

/-- The loop of `getValidFollow` over the objects of the Follow: the error of
`pub.ToId`, or whether an object with the id of the user was met. -/
def objectsIncludeUser (userIRI : url.URL) : List vocab.Item → Except String Bool
  | [] => .ok false
  | item :: rest =>
    match item.ToId with
    | .error e => .error e
    | .ok id =>
      if id.String == userIRI.String then .ok true
      else objectsIncludeUser userIRI rest

/-- The method `Framework.getValidFollow`. -/
def Framework.getValidFollow {σ : Type} (env : FrameworkEnv σ) (f : Framework) (ctx : Context)
    (userIRI followIRI : url.URL) (w : FrameworkWorld σ) :
    Except String vocab.ActivityStreamsFollow × FrameworkWorld σ :=
  match f.GetByIRI env ctx followIRI w with
  | (.error e, w) => (.error e, w)
  | (.ok tFollow, w) =>
    match env.ToActivityStreamsFollow ctx tFollow with
    | .error e => (.error e, w)
    | .ok follow =>
      let found : Except String Bool :=
        match follow.object with
        | none => .ok false
        | some obj => objectsIncludeUser userIRI obj
      match found with
      | .error e => (.error e, w)
      | .ok present =>
        if !present then (.error "cannot Accept Follow: Follow is not for this user", w)
        else (.ok follow, w)

/-- The first loop over the actors of the Follow: the ids appended to the `to`
property, or the error of `pub.ToId`. -/
def actorIds : List vocab.Item → Except String (List url.URL)
  | [] => .ok []
  | item :: rest =>
    match item.ToId with
    | .error e => .error e
    | .ok id =>
      match actorIds rest with
      | .error e => .error e
      | .ok ids => .ok (id :: ids)

/-- The second loop of `SendAcceptFollow` over the actors of the Follow, which
prepends each to the followers collection. -/
def prependFollowers {σ : Type} (env : FrameworkEnv σ) (ctx : Context) (followersIRI : url.URL) :
    List vocab.Item → FrameworkWorld σ → Option String × FrameworkWorld σ
  | [], w => (none, w)
  | item :: rest, w =>
    match item.ToId with
    | .error e => (some e, w)
    | .ok id =>
      let r := env.PrependItem ctx followersIRI id w.st
      let w : FrameworkWorld σ :=
        { st := r.2, trace := w.trace ++ [FrameworkEvent.prependItem followersIRI id] }
      match r.1 with
      | some e =>
        (some ("accepted Follow but not all actors were added to followers collection(" ++
          followersIRI.String ++ ")[" ++ id.String ++ "]: " ++ e), w)
      | none => prependFollowers env ctx followersIRI rest w

/-- The method `Framework.SendAcceptFollow`.  Calling `Begin` on the actor
property of a Follow that has none panics. -/
def Framework.SendAcceptFollow {σ : Type} (env : FrameworkEnv σ) (f : Framework) (ctx : Context)
    (userID : paths.UUID) (followIRI : url.URL) (w : FrameworkWorld σ) :
    Outcome × FrameworkWorld σ :=
  let myIRI := f.UserIRI env userID
  match f.getValidFollow env ctx myIRI followIRI w with
  | (.error e, w) => (Outcome.returned (some e), w)
  | (.ok follow, w) =>
    match follow.actor with
    | none => (Outcome.panicked, w)
    | some followActors =>
      match actorIds followActors with
      | .error e => (Outcome.returned (some e), w)
      | .ok ids =>
        let accept : Activity :=
          { typeName := "Accept", actor := [myIRI], object := [followIRI], to_ := ids }
        match f.Send env ctx userID accept w with
        | (some e, w) => (Outcome.returned (some e), w)
        | (none, w) =>
          let followersIRI :=
            env.UserIRIFor f.scheme f.host paths.PathKey.FollowersPathKey userID
          let r := prependFollowers env ctx followersIRI followActors w
          (Outcome.returned r.1, r.2)

/-- The method `Framework.SendRejectFollow`. -/
def Framework.SendRejectFollow {σ : Type} (env : FrameworkEnv σ) (f : Framework) (ctx : Context)
    (userID : paths.UUID) (followIRI : url.URL) (w : FrameworkWorld σ) :
    Outcome × FrameworkWorld σ :=
  let myIRI := f.UserIRI env userID
  match f.getValidFollow env ctx myIRI followIRI w with
  | (.error e, w) => (Outcome.returned (some e), w)
  | (.ok follow, w) =>
    match follow.actor with
    | none => (Outcome.panicked, w)
    | some followActors =>
      match actorIds followActors with
      | .error e => (Outcome.returned (some e), w)
      | .ok ids =>
        let reject : Activity :=
          { typeName := "Reject", actor := [myIRI], object := [followIRI], to_ := ids }
        match f.Send env ctx userID reject w with
        | (some e, w) => (Outcome.returned (some e), w)
        | (none, w) => (Outcome.returned none, w)

/-- The call prepends to a collection. -/
def FrameworkEvent.isPrepend : FrameworkEvent → Bool
  | .prependItem _ _ => true
  | _ => false

/-- The call is a Send. -/
def FrameworkEvent.isSend : FrameworkEvent → Bool
  | .actorSend _ _ _ _ => true
  | _ => false

/-- Every prepend of the trace comes after a Send that returned no error;
`sent` tells whether such a Send came before the trace. -/
def prependsAfterSend : Bool → List FrameworkEvent → Bool
  | _, [] => true
  | _, .actorSend _ _ _ none :: es => prependsAfterSend true es
  | sent, .prependItem _ _ :: es => sent && prependsAfterSend sent es
  | sent, _ :: es => prependsAfterSend sent es

/-- The user's IRI is not the id of any object of the Follow stored under
`followIRI` (which holds in particular when that Follow has no object
property). -/
def NotAddressedTo {σ : Type} (env : FrameworkEnv σ) (ctx : Context) (followIRI userIRI : url.URL)
    (s : σ) : Prop :=
  ∀ (stored : vocab.Value) (follow : vocab.ActivityStreamsFollow) (obj : List vocab.Item),
    (env.DataGet ctx followIRI s).1 = .ok stored →
    env.ToActivityStreamsFollow ctx stored = .ok follow →
    follow.object = some obj →
    ∀ item ∈ obj, ∀ id, item.ToId = .ok id → id.String ≠ userIRI.String

/-- A server `me.example` with federation enabled. -/
def sampleFramework : Framework :=
  { scheme := "https", host := "me.example", actorIsFederating := true,
    federationEnabled := true }

/-- The address of a local or remote user. -/
def userURL (host name : String) : url.URL :=
  { text := "https://" ++ host ++ "/users/" ++ name, Host := host }

/-- The stored Follow request: `carol` of `a.example` asks to follow `bob`. -/
def followOfBob : vocab.ActivityStreamsFollow :=
  { object := some [{ ToId := .ok (userURL "me.example" "bob") }]
    actor := some [{ ToId := .ok (userURL "a.example" "carol") }] }

/-- The address the Follow request is stored under. -/
def followIRI : url.URL :=
  { text := "https://a.example/activities/1", Host := "a.example" }

/-- A stand-in for the database and the federating actor: every address holds
`followOfBob`, and every Send and every prepend succeeds. -/
def sampleFrameworkEnv : FrameworkEnv Nat :=
  { UUIDIRIFor := fun _ host key uuid =>
      match key with
      | .OutboxPathKey => { text := "https://" ++ host ++ "/users/" ++ uuid ++ "/outbox",
                            Host := host }
      | _ => userURL host uuid
    UserIRIFor := fun _ host _ name =>
      { text := "https://" ++ host ++ "/users/" ++ name ++ "/followers", Host := host }
    WithUserPathUUID := fun c u => { c with UserPathUUID := .ok u }
    DataGet := fun _ _ s => (.ok (vocab.Value.follow followOfBob), s)
    ToActivityStreamsFollow := fun _ v =>
      match v with
      | .follow f => .ok f
      | .other name => .error ("cannot convert to Follow: " ++ name)
    ActorSend := fun _ _ _ s => (none, s + 1)
    PrependItem := fun _ _ _ s => (none, s + 1) }

/-- The framework world before any call. -/
def emptyFrameworkWorld : FrameworkWorld Nat := { st := 0, trace := [] }

/-! ## BatchDeliver: goroutines under a scheduler

`BatchDeliver` starts one goroutine per recipient and waits for all of them.
A goroutine is the rest of its body from its next call on; the scheduler picks
which goroutine makes its next call, so the calls of the deliveries interleave
in any order the picks give. -/

/-- What is left to run of a goroutine: it is done, or its next step is a call
on a collaborator (`next` is the effect of the call on the collaborators, `cont`
the rest of the body, both from the state the call is made in), a read of the
collaborator state, or the acquisition of a mutex. -/
inductive Goroutine (σ : Type) where
  | done (err : Option String)
  | call (ev : Event) (next : σ → σ) (cont : σ → Goroutine σ)
  | read (cont : σ → Goroutine σ)
  | lock (mu : Mutex) (cont : Goroutine σ)

/-- The method `transport.Deliver` as a goroutine body, call by call; `k` is
what the caller does with the error Deliver returns. -/
def transport.deliverGo {σ : Type} (env : Env σ) (t : transport) (c : Context) (b : Bytes)
    (to_ : url.URL) (k : Option String → Goroutine σ) : Goroutine σ :=
  let uc := c
  match uc.UserPathUUID with
  | .error e => k (some ("failed to determine user to deliver on behalf of: " ++ e))
  | .ok fromUUID =>
    Goroutine.call (Event.insertAttempt uc fromUUID to_ b)
      (fun s => (env.InsertAttempt uc fromUUID to_ b s).2) fun s =>
    match (env.InsertAttempt uc fromUUID to_ b s).1 with
    | .error e => k (some ("failed to create delivery attempt: " ++ e))
    | .ok attemptId =>
      let byteCopy := b
      match http.NewRequest env.Parse "POST" to_.String (some byteCopy) with
      | .error e => k (some e)
      | .ok req =>
        Goroutine.read fun s =>
        let _discarded := req.WithContext c
        let req := req.HeaderAdd "Content-Type" activityStreamsContentType
        let req := req.HeaderAdd "Accept-Charset" "utf-8"
        let req := req.HeaderAdd "Date" (t.date env { st := s, trace := [] })
        let req := req.HeaderAdd "User-Agent" (t.userAgent env)
        Goroutine.lock t.postSignerMu <|
        Goroutine.call (Event.signRequest t.postSigner t.pubKeyId req (some b))
          (fun s => (env.SignRequest t.postSigner t.privKey t.pubKeyId req (some b) s).2)
          fun s =>
        Goroutine.call (Event.unlock t.postSignerMu) (fun s2 => s2) fun _ =>
        match (env.SignRequest t.postSigner t.privKey t.pubKeyId req (some b) s).1 with
        | (_, some e) => k (some e)
        | (req, none) =>
          Goroutine.call (Event.wait c req.URL.Host) (fun s => (env.Wait c req.URL.Host s).2)
            fun s =>
          match (env.Wait c req.URL.Host s).1 with
          | some e => k (some e)
          | none =>
            Goroutine.call (Event.clientDo req) (fun s => (env.Do req s).2) fun s =>
            match (env.Do req s).1 with
            | .error e => k (some e)
            | .ok resp =>
              match t.handleDeliverResponse resp to_ with
              | some err =>
                Goroutine.call (Event.markFailure uc attemptId)
                  (fun s => (env.MarkRetryFailureAttempt uc attemptId s).2) fun s =>
                Goroutine.call (Event.bodyClose resp.Body) (env.Close resp.Body) fun _ =>
                match (env.MarkRetryFailureAttempt uc attemptId s).1 with
                | some err2 =>
                  k (some ("failed delivery and failed to mark as failure (" ++ attemptId ++
                    "): [" ++ err ++ ", " ++ err2 ++ "]"))
                | none => k (some err)
              | none =>
                Goroutine.call (Event.markSuccess uc attemptId)
                  (fun s => (env.MarkSuccessfulAttempt uc attemptId s).2) fun s =>
                Goroutine.call (Event.bodyClose resp.Body) (env.Close resp.Body) fun _ =>
                match (env.MarkSuccessfulAttempt uc attemptId s).1 with
                | some e =>
                  k (some ("failed to mark delivery as successful (" ++ attemptId ++ "): " ++ e))
                | none => k none

/-- One step of a goroutine in world `w` while the mutexes `held` are held: a
call is made and recorded, a read continues, a free mutex is acquired, and a
goroutine that is done or waits for a held mutex stays as it is. -/
def Goroutine.advance {σ : Type} (g : Goroutine σ) (w : World σ) (held : List Mutex) :
    Goroutine σ × World σ × List Mutex :=
  match g with
  | .done err => (.done err, w, held)
  | .call ev next cont =>
    (cont w.st, { st := next w.st, trace := w.trace ++ [ev] }, heldAfter held [ev])
  | .read cont => (cont w.st, w, held)
  | .lock mu cont =>
    if mu ∈ held then (.lock mu cont, w, held)
    else (cont, w.emit (Event.lock mu), mu :: held)

/-- The first `k` steps of a goroutine that runs alone. -/
def Goroutine.advanceN {σ : Type} :
    Nat → Goroutine σ → World σ → List Mutex → Goroutine σ × World σ × List Mutex
  | 0, g, w, held => (g, w, held)
  | k + 1, g, w, held =>
    Goroutine.advanceN k (g.advance w held).1 (g.advance w held).2.1 (g.advance w held).2.2

theorem mentions_mid (pre part post : String) : Mentions (pre ++ part ++ post) part :=
  ⟨pre.data, post.data, by simp⟩

theorem mentions_end (pre part : String) : Mentions (pre ++ part) part :=
  ⟨pre.data, [], by simp⟩

theorem Mentions.trans {a b c : String} (h₁ : Mentions a b) (h₂ : Mentions b c) :
    Mentions a c :=
  List.IsInfix.trans h₂ h₁

/-! ## Lemmas on header validation -/

theorem foldl_flags {α : Type} (p q r : α → Bool) (g : Bool) (l : List α)
    (init : Bool × Bool × Bool) :
    l.foldl (fun flags x => (flags.1 || p x, flags.2.1 || q x, g || flags.2.2 || r x)) init =
      (init.1 || l.any p, init.2.1 || l.any q,
       (init.2.2 || (g && !l.isEmpty)) || l.any r) := by
  induction l generalizing init with
  | nil => simp
  | cons h t ih =>
    rw [List.foldl_cons, ih]
    obtain ⟨a, b, c⟩ := init
    simp only [List.any_cons, List.isEmpty_cons]
    cases a <;> cases b <;> cases c <;> cases g <;> cases p h <;> cases q h <;> cases r h <;>
      simp

theorem any_beq_iff_mem (l : List String) (s : String) :
    l.any (fun x => x == s) = true ↔ s ∈ l := by
  simp [List.any_eq_true]

theorem requiredHeaderFlags_eq (method : String) (headers : List String) :
    requiredHeaderFlags method headers (false, false, false) =
      (headers.any (fun x => x == httpsig.RequestTarget),
       headers.any (fun x => x == "Date"),
       ((method == "GET" && !headers.isEmpty)) || headers.any (fun x => x == "Digest")) := by
  unfold requiredHeaderFlags
  rw [foldl_flags (fun x => x == httpsig.RequestTarget) (fun x => x == "Date")
    (fun x => x == "Digest") (method == "GET") headers (false, false, false)]
  simp

/-- What `containsRequiredHttpHeaders` answers on a list that is complete for
the method. -/
theorem containsRequiredHttpHeaders_complete (method : String) (headers : List String)
    (h1 : httpsig.RequestTarget ∈ headers) (h2 : "Date" ∈ headers)
    (h3 : method = "GET" ∨ "Digest" ∈ headers) :
    containsRequiredHttpHeaders method headers = none := by
  have e1 := (any_beq_iff_mem headers httpsig.RequestTarget).2 h1
  have e2 := (any_beq_iff_mem headers "Date").2 h2
  have hne : headers.isEmpty = false := by
    cases headers with
    | nil => simp at h1
    | cons => rfl
  unfold containsRequiredHttpHeaders
  rw [requiredHeaderFlags_eq]
  rcases h3 with h3 | h3
  · simp [e1, e2, h3, hne]
  · have e3 := (any_beq_iff_mem headers "Digest").2 h3
    simp [e1, e2, e3]

/-- What `containsRequiredHttpHeaders` answers when the request target is missing. -/
theorem containsRequiredHttpHeaders_noTarget (method : String) (headers : List String)
    (h1 : httpsig.RequestTarget ∉ headers) :
    containsRequiredHttpHeaders method headers =
      some ("missing http header for " ++ method ++ ": " ++ httpsig.RequestTarget) := by
  have e1 : headers.any (fun x => x == httpsig.RequestTarget) = false := by
    rw [← Bool.not_eq_true, any_beq_iff_mem]; exact h1
  unfold containsRequiredHttpHeaders
  rw [requiredHeaderFlags_eq]
  simp [e1]

/-- What `containsRequiredHttpHeaders` answers when only `Date` is missing among
the first two required headers. -/
theorem containsRequiredHttpHeaders_noDate (method : String) (headers : List String)
    (h1 : httpsig.RequestTarget ∈ headers) (h2 : "Date" ∉ headers) :
    containsRequiredHttpHeaders method headers =
      some ("missing http header for " ++ method ++ ": Date") := by
  have e1 := (any_beq_iff_mem headers httpsig.RequestTarget).2 h1
  have e2 : headers.any (fun x => x == "Date") = false := by
    rw [← Bool.not_eq_true, any_beq_iff_mem]; exact h2
  unfold containsRequiredHttpHeaders
  rw [requiredHeaderFlags_eq]
  simp [e1, e2]

/-- What `containsRequiredHttpHeaders` answers for a method other than GET when only
`Digest` is missing. -/
theorem containsRequiredHttpHeaders_noDigest (method : String) (headers : List String)
    (hm : method ≠ "GET")
    (h1 : httpsig.RequestTarget ∈ headers) (h2 : "Date" ∈ headers) (h3 : "Digest" ∉ headers) :
    containsRequiredHttpHeaders method headers =
      some ("missing http header for " ++ method ++ ": Digest") := by
  have e1 := (any_beq_iff_mem headers httpsig.RequestTarget).2 h1
  have e2 := (any_beq_iff_mem headers "Date").2 h2
  have e3 : headers.any (fun x => x == "Digest") = false := by
    rw [← Bool.not_eq_true, any_beq_iff_mem]; exact h3
  unfold containsRequiredHttpHeaders
  rw [requiredHeaderFlags_eq]
  simp [e1, e2, e3, hm]

theorem mentions_self (a : String) : Mentions a a := List.infix_refl _

theorem mentions_append_left {a p : String} (b : String) (h : Mentions a p) :
    Mentions (a ++ b) p := by
  obtain ⟨x, y, hxy⟩ := h
  exact ⟨x, y ++ b.data, by simp [← hxy]⟩

theorem mentions_append_right {b p : String} (a : String) (h : Mentions b p) :
    Mentions (a ++ b) p := by
  obtain ⟨x, y, hxy⟩ := h
  exact ⟨a.data ++ x, y, by simp [← hxy]⟩

theorem ne_of_longer (msg pre part post : String) (h : msg = pre ++ part ++ post)
    (hpre : 0 < pre.length) : msg ≠ part := by
  intro hm
  have hlen := congrArg String.length hm
  rw [h] at hlen
  simp only [String.length_append] at hlen
  omega

/-! ## Lemmas on the steps of a delivery -/

theorem lockedSign_eq {σ : Type} (env : Env σ) (t : transport) (mu : Mutex) (signer : Signer)
    (req : http.Request) (body : Option Bytes) (w : World σ) :
    t.lockedSign env mu signer req body w =
      ((env.SignRequest signer t.privKey t.pubKeyId req body w.st).1,
       { st := (env.SignRequest signer t.privKey t.pubKeyId req body w.st).2
         trace := w.trace ++ [Event.lock mu, Event.signRequest signer t.pubKeyId req body,
           Event.unlock mu] }) := by
  simp [transport.lockedSign, World.emit]

/-- The calls `Deliver` makes before it examines the response: the ledger
insert comes first and is the only ledger call. -/
theorem deliverSend_trace {σ : Type} (env : Env σ) (t : transport) (c : Context) (b : Bytes)
    (to_ : url.URL) (w : World σ) (u : paths.UUID) (hu : c.UserPathUUID = .ok u) :
    ∃ rest : List Event,
      (t.deliverSend env c b to_ w).2.trace =
        w.trace ++ Event.insertAttempt c u to_ b :: rest ∧
      (∀ e ∈ rest, e.isLedger = false) ∧
      (∀ e, (env.InsertAttempt c u to_ b w.st).1 = .error e →
        (t.deliverSend env c b to_ w).1 = .error ("failed to create delivery attempt: " ++ e) ∧
        rest = []) ∧
      (∀ id resp, (t.deliverSend env c b to_ w).1 = .ok (id, resp) →
        (env.InsertAttempt c u to_ b w.st).1 = .ok id) := by
  unfold transport.deliverSend
  simp only [hu, Controller.insertAttempt, Controller.wait, lockedSign_eq]
  rcases hins : env.InsertAttempt c u to_ b w.st with ⟨_ | attemptId, s1⟩
  · exact ⟨[], by simp⟩
  · simp only
    rcases hreq : http.NewRequest env.Parse "POST" to_.String (some b) with _ | req
    · exact ⟨[], by simp⟩
    · simp only
      split
      · rename_i heq
        simp only [Prod.mk.injEq] at heq
        obtain ⟨h1, rfl⟩ := heq
        simp [Event.isLedger]
      · rename_i heq
        simp only [Prod.mk.injEq] at heq
        obtain ⟨h1, rfl⟩ := heq
        simp only
        split
        · rename_i heq
          simp only [Prod.mk.injEq] at heq
          obtain ⟨h2, rfl⟩ := heq
          simp [Event.isLedger]
        · rename_i heq
          simp only [Prod.mk.injEq] at heq
          obtain ⟨h2, rfl⟩ := heq
          simp only
          split <;> simp [Event.isLedger]

/-- When the steps before the response return an error, so does `Deliver`,
with no further call. -/
theorem Deliver_of_send_error {σ : Type} (env : Env σ) (t : transport) (c : Context)
    (b : Bytes) (to_ : url.URL) (w w1 : World σ) (e : String)
    (hx : t.deliverSend env c b to_ w = (.error e, w1)) :
    t.Deliver env c b to_ w = (some e, w1) := by
  simp [transport.Deliver, hx]

/-- What `Deliver` does once it holds a response. -/
theorem Deliver_of_send_ok {σ : Type} (env : Env σ) (t : transport) (c : Context)
    (b : Bytes) (to_ : url.URL) (w w1 : World σ) (id : String) (resp : http.Response)
    (hx : t.deliverSend env c b to_ w = (.ok (id, resp), w1)) :
    t.Deliver env c b to_ w =
      match t.handleDeliverResponse resp to_ with
      | some err =>
        ((match (env.MarkRetryFailureAttempt c id w1.st).1 with
          | some err2 => some ("failed delivery and failed to mark as failure (" ++ id ++
              "): [" ++ err ++ ", " ++ err2 ++ "]")
          | none => some err),
         { st := env.Close resp.Body (env.MarkRetryFailureAttempt c id w1.st).2
           trace := w1.trace ++ [Event.markFailure c id, Event.bodyClose resp.Body] })
      | none =>
        ((match (env.MarkSuccessfulAttempt c id w1.st).1 with
          | some e => some ("failed to mark delivery as successful (" ++ id ++ "): " ++ e)
          | none => none),
         { st := env.Close resp.Body (env.MarkSuccessfulAttempt c id w1.st).2
           trace := w1.trace ++ [Event.markSuccess c id, Event.bodyClose resp.Body] }) := by
  simp only [transport.Deliver, hx, Controller.markFailure, Controller.markSuccess, bodyClose]
  cases t.handleDeliverResponse resp to_ with
  | some err =>
    simp only
    rcases hm : env.MarkRetryFailureAttempt c id w1.st with ⟨_ | e2, s⟩ <;> simp
  | none =>
    simp only
    rcases hm : env.MarkSuccessfulAttempt c id w1.st with ⟨_ | e2, s⟩ <;> simp

theorem handleDeliverResponse_success (t : transport) (r : http.Response) (iri : url.URL)
    (h : r.StatusCode = 200 ∨ r.StatusCode = 201 ∨ r.StatusCode = 202) :
    t.handleDeliverResponse r iri = none := by
  rcases h with h | h | h <;>
    simp [transport.handleDeliverResponse, h, http.StatusOK, http.StatusCreated,
      http.StatusAccepted]

theorem handleDeliverResponse_failure (t : transport) (r : http.Response) (iri : url.URL)
    (h200 : r.StatusCode ≠ 200) (h201 : r.StatusCode ≠ 201) (h202 : r.StatusCode ≠ 202) :
    t.handleDeliverResponse r iri =
      some ("delivery [" ++ iri.String ++ "] failed with status (" ++
        toString r.StatusCode ++ "): " ++ r.Status) := by
  simp [transport.handleDeliverResponse, h200, h201, h202, http.StatusOK, http.StatusCreated,
    http.StatusAccepted]

/-- A delivery whose steps before the response succeed has resolved an origin
actor. -/
theorem deliverSend_ok_user {σ : Type} (env : Env σ) (t : transport) (c : Context)
    (b : Bytes) (to_ : url.URL) (w w1 : World σ) (id : String) (resp : http.Response)
    (hx : t.deliverSend env c b to_ w = (.ok (id, resp), w1)) :
    ∃ u, c.UserPathUUID = .ok u := by
  cases hu : c.UserPathUUID with
  | error e => simp [transport.deliverSend, hu] at hx
  | ok u => exact ⟨u, rfl⟩

theorem filter_isLedger_eq_nil (l : List Event) (h : ∀ e ∈ l, e.isLedger = false) :
    l.filter Event.isLedger = [] := by
  induction l with
  | nil => rfl
  | cons x xs ih =>
    have hx := h x (List.mem_cons_self _ _)
    simp [List.filter_cons, hx, ih (fun e he => h e (List.mem_cons_of_mem _ he))]

/-- A delivery whose steps before the response succeed has made exactly one
ledger call so far, the insert that returned the attempt id. -/
theorem deliverSend_ok_ledger {σ : Type} (env : Env σ) (t : transport) (c : Context)
    (b : Bytes) (to_ : url.URL) (w w1 : World σ) (id : String) (resp : http.Response)
    (hx : t.deliverSend env c b to_ w = (.ok (id, resp), w1)) :
    ∃ (u : paths.UUID) (rest1 : List Event),
      c.UserPathUUID = .ok u ∧
      (env.InsertAttempt c u to_ b w.st).1 = .ok id ∧
      w1.trace = w.trace ++ Event.insertAttempt c u to_ b :: rest1 ∧
      rest1.filter Event.isLedger = [] := by
  obtain ⟨u, hu⟩ := deliverSend_ok_user env t c b to_ w w1 id resp hx
  obtain ⟨rest1, htr, hled, -, hok⟩ := deliverSend_trace env t c b to_ w u hu
  rw [hx] at htr hok
  exact ⟨u, rest1, hu, hok id resp rfl, htr, filter_isLedger_eq_nil rest1 hled⟩

/-- The calls of a delivery that resolves an origin actor: the ledger insert comes
first and is the only insert. -/
theorem Deliver_trace_insert {σ : Type} (env : Env σ) (t : transport) (c : Context)
    (b : Bytes) (to_ : url.URL) (w : World σ) (u : paths.UUID)
    (hu : c.UserPathUUID = .ok u) :
    ∃ rest : List Event,
      (t.Deliver env c b to_ w).2.trace = w.trace ++ Event.insertAttempt c u to_ b :: rest ∧
      (∀ e ∈ rest, e.isInsert = false) ∧
      (∀ e, (env.InsertAttempt c u to_ b w.st).1 = .error e →
        (t.Deliver env c b to_ w).1 = some ("failed to create delivery attempt: " ++ e) ∧
        rest = []) := by
  obtain ⟨rest1, htr, hled, hfail, -⟩ := deliverSend_trace env t c b to_ w u hu
  have hins : ∀ e ∈ rest1, e.isInsert = false := by
    intro e he
    have := hled e he
    cases e <;> simp_all [Event.isInsert, Event.isLedger]
  rcases hx : t.deliverSend env c b to_ w with ⟨e0 | ⟨id, resp⟩, w1⟩
  · rw [hx] at htr hfail
    rw [Deliver_of_send_error env t c b to_ w w1 e0 hx]
    refine ⟨rest1, htr, hins, ?_⟩
    intro e he
    obtain ⟨h1, h2⟩ := hfail e he
    simp only [Except.error.injEq] at h1
    exact ⟨by rw [h1], h2⟩
  · rw [hx] at htr hfail
    rw [Deliver_of_send_ok env t c b to_ w w1 id resp hx]
    cases t.handleDeliverResponse resp to_ with
    | some err =>
      refine ⟨rest1 ++ [Event.markFailure c id, Event.bodyClose resp.Body], ?_, ?_, ?_⟩
      · simp only at htr ⊢
        rw [htr]; simp
      · intro e he
        rcases List.mem_append.mp he with h | h
        · exact hins e h
        · simp at h; rcases h with rfl | rfl <;> rfl
      · intro e he
        exact absurd (hfail e he).1 (by simp)
    | none =>
      refine ⟨rest1 ++ [Event.markSuccess c id, Event.bodyClose resp.Body], ?_, ?_, ?_⟩
      · simp only at htr ⊢
        rw [htr]; simp
      · intro e he
        rcases List.mem_append.mp he with h | h
        · exact hins e h
        · simp at h; rcases h with rfl | rfl <;> rfl
      · intro e he
        exact absurd (hfail e he).1 (by simp)


/-! ## Lemmas on the steps of a fetch -/

/-- The calls `Dereference` makes up to the response leave the ledger alone. -/
theorem dereferenceSend_trace {σ : Type} (env : Env σ) (t : transport) (c : Context)
    (iri : url.URL) (w : World σ) :
    ∃ evs : List Event,
      (t.dereferenceSend env c iri w).2.trace = w.trace ++ evs ∧
      ∀ e ∈ evs, e.isLedger = false := by
  unfold transport.dereferenceSend
  simp only [Controller.wait, lockedSign_eq]
  rcases hreq : http.NewRequest env.Parse "GET" iri.String none with _ | req
  · exact ⟨[], by simp⟩
  · simp only
    split
    · rename_i heq
      simp only [Prod.mk.injEq] at heq
      obtain ⟨h1, rfl⟩ := heq
      simp [Event.isLedger]
    · rename_i heq
      simp only [Prod.mk.injEq] at heq
      obtain ⟨h1, rfl⟩ := heq
      simp only
      split
      · rename_i heq
        simp only [Prod.mk.injEq] at heq
        obtain ⟨h2, rfl⟩ := heq
        simp [Event.isLedger]
      · rename_i heq
        simp only [Prod.mk.injEq] at heq
        obtain ⟨h2, rfl⟩ := heq
        simp [Event.isLedger]

theorem handleDereferenceResponse_ok (t : transport) (r : http.Response) (iri : url.URL)
    (h : r.StatusCode = 200) : t.handleDereferenceResponse r iri = none := by
  simp [transport.handleDereferenceResponse, h, http.StatusOK]

theorem handleDereferenceResponse_failure (t : transport) (r : http.Response) (iri : url.URL)
    (h : r.StatusCode ≠ 200) :
    t.handleDereferenceResponse r iri =
      some ("url IRI dereference [" ++ iri.String ++ "] failed with status (" ++
        toString r.StatusCode ++ "): " ++ r.Status) := by
  simp [transport.handleDereferenceResponse, h, http.StatusOK]

/-! ## Lemmas on mutexes in a trace -/

theorem heldAfter_append (a b : List Event) (held : List Mutex) :
    heldAfter held (a ++ b) = heldAfter (heldAfter held a) b := by
  induction a generalizing held with
  | nil => rfl
  | cons e es ih => cases e <;> simp [heldAfter, ih]

theorem signsUnder_append (mu : Mutex) (signer : Signer) (a b : List Event)
    (held : List Mutex) :
    signsUnder mu signer held (a ++ b) =
      (signsUnder mu signer held a && signsUnder mu signer (heldAfter held a) b) := by
  induction a generalizing held with
  | nil => simp [signsUnder, heldAfter]
  | cons e es ih => cases e <;> simp [signsUnder, heldAfter, ih, Bool.and_assoc]

/-- The calls `Deliver` makes before it examines the response sign under the
POST signer mutex and leave no mutex held. -/
theorem deliverSend_locks {σ : Type} (env : Env σ) (t : transport) (c : Context) (b : Bytes)
    (to_ : url.URL) (w : World σ) :
    ∃ evs : List Event,
      (t.deliverSend env c b to_ w).2.trace = w.trace ++ evs ∧
      signsUnder t.postSignerMu t.postSigner [] evs = true ∧
      heldAfter [] evs = [] := by
  unfold transport.deliverSend
  simp only [Controller.insertAttempt, Controller.wait, lockedSign_eq]
  cases hu : c.UserPathUUID with
  | error e => exact ⟨[], by simp [signsUnder, heldAfter]⟩
  | ok u =>
    simp only
    rcases hins : env.InsertAttempt c u to_ b w.st with ⟨_ | attemptId, s1⟩
    · exact ⟨[Event.insertAttempt c u to_ b], by simp [signsUnder, heldAfter]⟩
    · simp only
      rcases hreq : http.NewRequest env.Parse "POST" to_.String (some b) with _ | req
      · exact ⟨[Event.insertAttempt c u to_ b], by simp [signsUnder, heldAfter]⟩
      · simp only
        split
        · rename_i heq
          simp only [Prod.mk.injEq] at heq
          obtain ⟨h1, rfl⟩ := heq
          simp [signsUnder, heldAfter]
        · rename_i heq
          simp only [Prod.mk.injEq] at heq
          obtain ⟨h1, rfl⟩ := heq
          simp only
          split
          · rename_i heq
            simp only [Prod.mk.injEq] at heq
            obtain ⟨h2, rfl⟩ := heq
            simp [signsUnder, heldAfter]
          · rename_i heq
            simp only [Prod.mk.injEq] at heq
            obtain ⟨h2, rfl⟩ := heq
            simp only
            split <;> simp [signsUnder, heldAfter]

/-- The calls `Dereference` makes up to the response sign under the GET signer
mutex and leave no mutex held. -/
theorem dereferenceSend_locks {σ : Type} (env : Env σ) (t : transport) (c : Context)
    (iri : url.URL) (w : World σ) :
    ∃ evs : List Event,
      (t.dereferenceSend env c iri w).2.trace = w.trace ++ evs ∧
      signsUnder t.getSignerMu t.getSigner [] evs = true ∧
      heldAfter [] evs = [] := by
  unfold transport.dereferenceSend
  simp only [Controller.wait, lockedSign_eq]
  rcases hreq : http.NewRequest env.Parse "GET" iri.String none with _ | req
  · exact ⟨[], by simp [signsUnder, heldAfter]⟩
  · simp only
    split
    · rename_i heq
      simp only [Prod.mk.injEq] at heq
      obtain ⟨h1, rfl⟩ := heq
      simp [signsUnder, heldAfter]
    · rename_i heq
      simp only [Prod.mk.injEq] at heq
      obtain ⟨h1, rfl⟩ := heq
      simp only
      split
      · rename_i heq
        simp only [Prod.mk.injEq] at heq
        obtain ⟨h2, rfl⟩ := heq
        simp [signsUnder, heldAfter]
      · rename_i heq
        simp only [Prod.mk.injEq] at heq
        obtain ⟨h2, rfl⟩ := heq
        simp [signsUnder, heldAfter]

/-! ## Lemmas on the noise of node statistics -/

theorem services.maybeGetWithUncertainty_of_ge (n : services.NodeInfo) (v : Int) (s1 s2 : ℚ)
    (max : Int) (h : 50 ≤ v) : n.maybeGetWithUncertainty v s1 s2 max = some (v, n) := by
  simp [services.NodeInfo.maybeGetWithUncertainty, h]

theorem services.maybeGetWithUncertainty_eq_of_ge (n n2 : services.NodeInfo) (v x : Int)
    (s1 s2 : ℚ) (max : Int) (h : 50 ≤ v)
    (hr : n.maybeGetWithUncertainty v s1 s2 max = some (x, n2)) : x = v := by
  rw [services.maybeGetWithUncertainty_of_ge n v s1 s2 max h] at hr
  simp only [Option.some.injEq, Prod.mk.injEq] at hr
  exact hr.1.symm

/-! ## Lemmas on accepting and rejecting a Follow -/

theorem objectsIncludeUser_ne_true (userIRI : url.URL) (obj : List vocab.Item)
    (h : ∀ item ∈ obj, ∀ id, item.ToId = .ok id → id.String ≠ userIRI.String) :
    objectsIncludeUser userIRI obj ≠ .ok true := by
  induction obj with
  | nil => simp [objectsIncludeUser]
  | cons item rest ih =>
    unfold objectsIncludeUser
    cases hid : item.ToId with
    | error e => simp
    | ok id =>
      have hne := h item (List.mem_cons_self _ _) id hid
      simp only [beq_iff_eq, hne, if_false]
      exact ih (fun it hit => h it (List.mem_cons_of_mem _ hit))

/-- On every path `getValidFollow` makes one call, the read of the stored
Follow. -/
theorem getValidFollow_world {σ : Type} (env : FrameworkEnv σ) (f : Framework) (ctx : Context)
    (userIRI followIRI : url.URL) (w : FrameworkWorld σ) :
    (f.getValidFollow env ctx userIRI followIRI w).2 =
      { st := (env.DataGet ctx followIRI w.st).2
        trace := w.trace ++ [FrameworkEvent.dataGet followIRI] } := by
  unfold Framework.getValidFollow Framework.GetByIRI
  rcases hget : env.DataGet ctx followIRI w.st with ⟨_ | stored, s⟩
  · rfl
  · simp only
    cases env.ToActivityStreamsFollow ctx stored with
    | error e => rfl
    | ok follow =>
      simp only
      split
      · rfl
      · split <;> rfl

/-- The check of `getValidFollow` fails on a Follow that is not addressed to the
user. -/
theorem getValidFollow_not_addressed {σ : Type} (env : FrameworkEnv σ) (f : Framework)
    (ctx : Context) (userIRI followIRI : url.URL) (w : FrameworkWorld σ)
    (h : NotAddressedTo env ctx followIRI userIRI w.st) :
    ∃ e, (f.getValidFollow env ctx userIRI followIRI w).1 = .error e := by
  unfold Framework.getValidFollow Framework.GetByIRI
  rcases hget : env.DataGet ctx followIRI w.st with ⟨_ | stored, s⟩
  · exact ⟨_, rfl⟩
  · simp only
    cases hconv : env.ToActivityStreamsFollow ctx stored with
    | error e => exact ⟨_, rfl⟩
    | ok follow =>
      simp only
      cases hobj : follow.object with
      | none => exact ⟨_, rfl⟩
      | some obj =>
        simp only
        have hne := objectsIncludeUser_ne_true userIRI obj
          (h stored follow obj (by rw [hget]) hconv hobj)
        cases hfound : objectsIncludeUser userIRI obj with
        | error e => exact ⟨_, rfl⟩
        | ok present =>
          cases present with
          | false => exact ⟨_, rfl⟩
          | true => exact absurd hfound hne

theorem prependsAfterSend_sent (es : List FrameworkEvent) : prependsAfterSend true es = true := by
  induction es with
  | nil => rfl
  | cons e rest ih =>
    cases e with
    | dataGet id => simpa [prependsAfterSend] using ih
    | actorSend c o t err => cases err <;> simpa [prependsAfterSend] using ih
    | prependItem c i => simpa [prependsAfterSend] using ih

/-- The loop that prepends the followers only appends to the trace. -/
theorem prependFollowers_trace {σ : Type} (env : FrameworkEnv σ) (ctx : Context)
    (followersIRI : url.URL) (items : List vocab.Item) (w : FrameworkWorld σ) :
    ∃ evs : List FrameworkEvent,
      (prependFollowers env ctx followersIRI items w).2.trace = w.trace ++ evs := by
  induction items generalizing w with
  | nil => exact ⟨[], by simp [prependFollowers]⟩
  | cons item rest ih =>
    unfold prependFollowers
    cases item.ToId with
    | error e => exact ⟨[], by simp⟩
    | ok id =>
      simp only
      cases (env.PrependItem ctx followersIRI id w.st).1 with
      | some e => exact ⟨[FrameworkEvent.prependItem followersIRI id], by simp⟩
      | none =>
        obtain ⟨evs, h⟩ := ih
          { st := (env.PrependItem ctx followersIRI id w.st).2
            trace := w.trace ++ [FrameworkEvent.prependItem followersIRI id] }
        exact ⟨FrameworkEvent.prependItem followersIRI id :: evs, by simp [h]⟩

/-- What `Send` leaves in the trace: nothing or a failed Send when it returns an
error, a Send without error otherwise. -/
theorem Send_trace {σ : Type} (env : FrameworkEnv σ) (f : Framework) (c : Context)
    (userID : paths.UUID) (t : Activity) (w : FrameworkWorld σ) :
    (∀ e, (f.Send env c userID t w).1 = some e →
      (f.Send env c userID t w).2.trace = w.trace ∨
      ∃ c2 o, (f.Send env c userID t w).2.trace =
        w.trace ++ [FrameworkEvent.actorSend c2 o t (some e)]) ∧
    ((f.Send env c userID t w).1 = none →
      ∃ c2 o, (f.Send env c userID t w).2.trace =
        w.trace ++ [FrameworkEvent.actorSend c2 o t none]) := by
  unfold Framework.Send
  cases hfed : f.federationEnabled <;> cases hact : f.actorIsFederating <;> simp

/-! ## Lemmas on goroutines under a scheduler -/

theorem Goroutine.advanceN_done {σ : Type} (k : Nat) (err : Option String) (w : World σ)
    (held : List Mutex) :
    Goroutine.advanceN k (Goroutine.done err) w held = (Goroutine.done err, w, held) := by
  induction k with
  | zero => rfl
  | succ k ih => simpa [Goroutine.advanceN, Goroutine.advance] using ih

theorem Goroutine.advanceN_call {σ : Type} (k : Nat) (ev : Event) (next : σ → σ)
    (cont : σ → Goroutine σ) (w : World σ) (held : List Mutex) :
    Goroutine.advanceN (k + 1) (Goroutine.call ev next cont) w held =
      Goroutine.advanceN k (cont w.st) { st := next w.st, trace := w.trace ++ [ev] }
        (heldAfter held [ev]) := rfl

theorem Goroutine.advanceN_read {σ : Type} (k : Nat) (cont : σ → Goroutine σ) (w : World σ)
    (held : List Mutex) :
    Goroutine.advanceN (k + 1) (Goroutine.read cont) w held =
      Goroutine.advanceN k (cont w.st) w held := rfl

theorem Goroutine.advanceN_lock {σ : Type} (k : Nat) (mu : Mutex) (cont : Goroutine σ)
    (w : World σ) :
    Goroutine.advanceN (k + 1) (Goroutine.lock mu cont) w [] =
      Goroutine.advanceN k cont { st := w.st, trace := w.trace ++ [Event.lock mu] } [mu] := by
  simp [Goroutine.advanceN, Goroutine.advance, World.emit]

/-- A goroutine that runs `Deliver` alone, with no mutex held, ends within
twelve steps with the error and in the world `Deliver` gives, no mutex held. -/
theorem deliverGo_alone {σ : Type} (env : Env σ) (t : transport) (c : Context) (b : Bytes)
    (to_ : url.URL) (w : World σ) :
    Goroutine.advanceN 12 (t.deliverGo env c b to_ Goroutine.done) w [] =
      (Goroutine.done (t.Deliver env c b to_ w).1, (t.Deliver env c b to_ w).2, []) := by
  unfold transport.Deliver transport.deliverSend transport.deliverGo
  cases hu : c.UserPathUUID with
  | error e => simp [hu, Goroutine.advanceN_done]
  | ok u =>
    simp only [hu, Goroutine.advanceN_call, Controller.insertAttempt, Controller.wait,
      Controller.markFailure, Controller.markSuccess, bodyClose]
    rcases hins : env.InsertAttempt c u to_ b w.st with ⟨e | id, s1⟩
    · simp [Goroutine.advanceN_done, heldAfter]
    · simp only
      rcases hreq : http.NewRequest env.Parse "POST" to_.String (some b) with e | req
      · simp [Goroutine.advanceN_done, heldAfter]
      · simp only [Goroutine.advanceN_read, heldAfter, Goroutine.advanceN_lock,
          Goroutine.advanceN_call, lockedSign_eq, transport.date]
        rcases hsign : env.SignRequest t.postSigner t.privKey t.pubKeyId
          ((((req.HeaderAdd "Content-Type" activityStreamsContentType).HeaderAdd
            "Accept-Charset" "utf-8").HeaderAdd "Date" (env.Now s1 ++ " GMT")).HeaderAdd
            "User-Agent" (t.userAgent env)) (some b) s1 with ⟨⟨req2, _ | e⟩, s2⟩
        · simp only [List.erase_cons_head, Goroutine.advanceN_call, heldAfter]
          rcases hwait : env.Wait c req2.URL.Host s2 with ⟨_ | e, s3⟩
          · simp only [Goroutine.advanceN_call, heldAfter]
            rcases hdo : env.Do req2 s3 with ⟨e | resp, s4⟩
            · simp [Goroutine.advanceN_done]
            · simp only
              cases hh : t.handleDeliverResponse resp to_ with
              | some err =>
                simp only [Goroutine.advanceN_call, heldAfter]
                rcases hm : env.MarkRetryFailureAttempt c id s4 with ⟨_ | e2, s5⟩ <;>
                  simp [Goroutine.advanceN_done]
              | none =>
                simp only [Goroutine.advanceN_call, heldAfter]
                rcases hm : env.MarkSuccessfulAttempt c id s4 with ⟨_ | e2, s5⟩ <;>
                  simp [Goroutine.advanceN_done]
          · simp [Goroutine.advanceN_done]
        · simp [Goroutine.advanceN_done, heldAfter]

/-- C1: a configuration with qps > 0, burst > 0, at least one signature
algorithm, a supported digest algorithm, a GET header list with
"(request-target)" and "Date", and a POST header list with "(request-target)",
"Date" and "Digest" makes NewController return a Controller and a nil error;
the Controller carries the configured algorithms, digest algorithm and header
lists unchanged and in order. -/
theorem NewController_valid (sup : String → Bool) (c : config.Config)
    (hqps : 0 < c.ActivityPubConfig.OutboundRateLimitQPS)
    (hburst : 0 < c.ActivityPubConfig.OutboundRateLimitBurst)
    (halgs : c.ActivityPubConfig.HttpSignaturesConfig.Algorithms ≠ [])
    (hdigest : sup c.ActivityPubConfig.HttpSignaturesConfig.DigestAlgorithm = true)
    (hgetTarget : "(request-target)" ∈ c.ActivityPubConfig.HttpSignaturesConfig.GetHeaders)
    (hgetDate : "Date" ∈ c.ActivityPubConfig.HttpSignaturesConfig.GetHeaders)
    (hpostTarget : "(request-target)" ∈ c.ActivityPubConfig.HttpSignaturesConfig.PostHeaders)
    (hpostDate : "Date" ∈ c.ActivityPubConfig.HttpSignaturesConfig.PostHeaders)
    (hpostDigest : "Digest" ∈ c.ActivityPubConfig.HttpSignaturesConfig.PostHeaders) :
    ∃ tc : Controller,
      NewController sup c = (some tc, none) ∧
      tc.algs = c.ActivityPubConfig.HttpSignaturesConfig.Algorithms ∧
      tc.digestAlg = c.ActivityPubConfig.HttpSignaturesConfig.DigestAlgorithm ∧
      tc.getHeaders = c.ActivityPubConfig.HttpSignaturesConfig.GetHeaders ∧
      tc.postHeaders = c.ActivityPubConfig.HttpSignaturesConfig.PostHeaders := by
  have hget := containsRequiredHttpHeaders_complete "GET"
    c.ActivityPubConfig.HttpSignaturesConfig.GetHeaders hgetTarget hgetDate (Or.inl rfl)
  have hpost := containsRequiredHttpHeaders_complete "POST"
    c.ActivityPubConfig.HttpSignaturesConfig.PostHeaders hpostTarget hpostDate
    (Or.inr hpostDigest)
  have hlen : c.ActivityPubConfig.HttpSignaturesConfig.Algorithms.length ≠ 0 := by
    simpa using halgs
  refine ⟨{ algs := c.ActivityPubConfig.HttpSignaturesConfig.Algorithms
            digestAlg := c.ActivityPubConfig.HttpSignaturesConfig.DigestAlgorithm
            getHeaders := c.ActivityPubConfig.HttpSignaturesConfig.GetHeaders
            postHeaders := c.ActivityPubConfig.HttpSignaturesConfig.PostHeaders
            hl := newHostLimiter c }, ?_, rfl, rfl, rfl, rfl⟩
  unfold NewController
  rw [if_neg (not_le.mpr hqps), if_neg (not_le.mpr hburst), if_neg hlen]
  simp [hget, hpost, hdigest]

/-- C1 at `sampleConfig`. -/
theorem NewController_valid_witness :
    ∃ tc : Controller,
      NewController sampleSupported sampleConfig = (some tc, none) ∧
      tc.algs = ["rsa-sha256", "rsa-sha512"] ∧
      tc.digestAlg = "SHA-256" ∧
      tc.getHeaders = ["(request-target)", "Date"] ∧
      tc.postHeaders = ["(request-target)", "Date", "Digest"] :=
  NewController_valid sampleSupported sampleConfig (by simp [sampleConfig])
    (by simp [sampleConfig]) (by simp [sampleConfig]) (by decide)
    (by simp [sampleConfig]) (by simp [sampleConfig]) (by simp [sampleConfig])
    (by simp [sampleConfig]) (by simp [sampleConfig])

/-- C2: a configuration that violates exactly one construction requirement
makes NewController return a nil Controller and an error whose message names
the violated field (qps, burst, algorithms, the method with a missing header, or
the digest algorithm). -/
theorem NewController_invalid (sup : String → Bool) (c : config.Config) (r : Requirement)
    (hviolated : ¬ r.holds sup c)
    (hothers : ∀ r2 : Requirement, r2 ≠ r → r2.holds sup c) :
    ∃ msg : String, NewController sup c = (none, some msg) ∧ r.namedBy c msg := by
  cases r with
  | qps =>
    have h : c.ActivityPubConfig.OutboundRateLimitQPS ≤ 0 := not_lt.mp hviolated
    refine ⟨"outbound rate limit qps is <= 0", ?_, ?_⟩
    · unfold NewController; rw [if_pos h]
    · show Mentions _ _; decide
  | burst =>
    have h1 : 0 < c.ActivityPubConfig.OutboundRateLimitQPS :=
      hothers Requirement.qps (by decide)
    have h : c.ActivityPubConfig.OutboundRateLimitBurst ≤ 0 := not_lt.mp hviolated
    refine ⟨"outbound rate limit burst is <= 0", ?_, ?_⟩
    · unfold NewController; rw [if_neg (not_le.mpr h1), if_pos h]
    · show Mentions _ _; decide
  | algorithms =>
    have h1 : 0 < c.ActivityPubConfig.OutboundRateLimitQPS :=
      hothers Requirement.qps (by decide)
    have h2 : 0 < c.ActivityPubConfig.OutboundRateLimitBurst :=
      hothers Requirement.burst (by decide)
    have h : c.ActivityPubConfig.HttpSignaturesConfig.Algorithms.length = 0 := by
      have : c.ActivityPubConfig.HttpSignaturesConfig.Algorithms = [] :=
        not_not.mp hviolated
      simp [this]
    refine ⟨"no httpsig algorithms specified", ?_, ?_⟩
    · unfold NewController; rw [if_neg (not_le.mpr h1), if_neg (not_le.mpr h2), if_pos h]
    · show Mentions _ _; decide
  | getHeaders =>
    have h1 : 0 < c.ActivityPubConfig.OutboundRateLimitQPS :=
      hothers Requirement.qps (by decide)
    have h2 : 0 < c.ActivityPubConfig.OutboundRateLimitBurst :=
      hothers Requirement.burst (by decide)
    have h3 : c.ActivityPubConfig.HttpSignaturesConfig.Algorithms.length ≠ 0 := by
      have : c.ActivityPubConfig.HttpSignaturesConfig.Algorithms ≠ [] :=
        hothers Requirement.algorithms (by decide)
      simpa using this
    by_cases ht : "(request-target)" ∈ c.ActivityPubConfig.HttpSignaturesConfig.GetHeaders
    · have hd : "Date" ∉ c.ActivityPubConfig.HttpSignaturesConfig.GetHeaders :=
        fun hd => hviolated ⟨ht, hd⟩
      have e := containsRequiredHttpHeaders_noDate "GET" _ ht hd
      refine ⟨"missing http header for " ++ "GET" ++ ": Date", ?_, ?_, "Date", by simp, hd, ?_⟩
      · unfold NewController
        rw [if_neg (not_le.mpr h1), if_neg (not_le.mpr h2), if_neg h3]
        simp [e]
      · exact mentions_mid "missing http header for " "GET" ": Date"
      · show Mentions _ _; decide
    · have e := containsRequiredHttpHeaders_noTarget "GET" _ ht
      refine ⟨"missing http header for " ++ "GET" ++ ": " ++ httpsig.RequestTarget, ?_, ?_, "(request-target)", by simp, ht, ?_⟩
      · unfold NewController
        rw [if_neg (not_le.mpr h1), if_neg (not_le.mpr h2), if_neg h3]
        simp [e]
      · exact mentions_mid "missing http header for " "GET" (": " ++ httpsig.RequestTarget)
      · exact mentions_end _ httpsig.RequestTarget
  | postHeaders =>
    have h1 : 0 < c.ActivityPubConfig.OutboundRateLimitQPS :=
      hothers Requirement.qps (by decide)
    have h2 : 0 < c.ActivityPubConfig.OutboundRateLimitBurst :=
      hothers Requirement.burst (by decide)
    have h3 : c.ActivityPubConfig.HttpSignaturesConfig.Algorithms.length ≠ 0 := by
      have : c.ActivityPubConfig.HttpSignaturesConfig.Algorithms ≠ [] :=
        hothers Requirement.algorithms (by decide)
      simpa using this
    have h4 := hothers Requirement.getHeaders (by decide)
    have eget := containsRequiredHttpHeaders_complete "GET"
      c.ActivityPubConfig.HttpSignaturesConfig.GetHeaders h4.1 h4.2 (Or.inl rfl)
    by_cases ht : "(request-target)" ∈ c.ActivityPubConfig.HttpSignaturesConfig.PostHeaders
    · by_cases hd : "Date" ∈ c.ActivityPubConfig.HttpSignaturesConfig.PostHeaders
      · have hg : "Digest" ∉ c.ActivityPubConfig.HttpSignaturesConfig.PostHeaders :=
          fun hg => hviolated ⟨ht, hd, hg⟩
        have e := containsRequiredHttpHeaders_noDigest "POST" _ (by decide) ht hd hg
        refine ⟨"missing http header for " ++ "POST" ++ ": Digest", ?_, ?_, "Digest", by simp, hg, ?_⟩
        · unfold NewController
          rw [if_neg (not_le.mpr h1), if_neg (not_le.mpr h2), if_neg h3]
          simp [eget, e]
        · exact mentions_mid "missing http header for " "POST" ": Digest"
        · show Mentions _ _; decide
      · have e := containsRequiredHttpHeaders_noDate "POST" _ ht hd
        refine ⟨"missing http header for " ++ "POST" ++ ": Date", ?_, ?_, "Date", by simp, hd, ?_⟩
        · unfold NewController
          rw [if_neg (not_le.mpr h1), if_neg (not_le.mpr h2), if_neg h3]
          simp [eget, e]
        · exact mentions_mid "missing http header for " "POST" ": Date"
        · show Mentions _ _; decide
    · have e := containsRequiredHttpHeaders_noTarget "POST" _ ht
      refine ⟨"missing http header for " ++ "POST" ++ ": " ++ httpsig.RequestTarget, ?_, ?_, "(request-target)", by simp, ht, ?_⟩
      · unfold NewController
        rw [if_neg (not_le.mpr h1), if_neg (not_le.mpr h2), if_neg h3]
        simp [eget, e]
      · exact mentions_mid "missing http header for " "POST" (": " ++ httpsig.RequestTarget)
      · exact mentions_end _ httpsig.RequestTarget
  | digestAlgorithm =>
    have h1 : 0 < c.ActivityPubConfig.OutboundRateLimitQPS :=
      hothers Requirement.qps (by decide)
    have h2 : 0 < c.ActivityPubConfig.OutboundRateLimitBurst :=
      hothers Requirement.burst (by decide)
    have h3 : c.ActivityPubConfig.HttpSignaturesConfig.Algorithms.length ≠ 0 := by
      have : c.ActivityPubConfig.HttpSignaturesConfig.Algorithms ≠ [] :=
        hothers Requirement.algorithms (by decide)
      simpa using this
    have h4 := hothers Requirement.getHeaders (by decide)
    have h5 := hothers Requirement.postHeaders (by decide)
    have eget := containsRequiredHttpHeaders_complete "GET"
      c.ActivityPubConfig.HttpSignaturesConfig.GetHeaders h4.1 h4.2 (Or.inl rfl)
    have epost := containsRequiredHttpHeaders_complete "POST"
      c.ActivityPubConfig.HttpSignaturesConfig.PostHeaders h5.1 h5.2.1 (Or.inr h5.2.2)
    have h : sup c.ActivityPubConfig.HttpSignaturesConfig.DigestAlgorithm = false := by
      simpa [Requirement.holds] using hviolated
    refine ⟨_, ?_, mentions_end "unsupported digest algorithm: " _⟩
    unfold NewController
    rw [if_neg (not_le.mpr h1), if_neg (not_le.mpr h2), if_neg h3]
    simp [eget, epost, h]

/-- C2 at `noDigestConfig`, whose POST header list lacks `Digest`. -/
theorem NewController_invalid_witness :
    ∃ msg : String, NewController sampleSupported noDigestConfig = (none, some msg) ∧
      Requirement.postHeaders.namedBy noDigestConfig msg :=
  NewController_invalid sampleSupported noDigestConfig Requirement.postHeaders
    (by simp [Requirement.holds, noDigestConfig])
    (by
      intro r2 h
      cases r2 <;> first
        | exact absurd rfl h
        | simp [Requirement.holds, noDigestConfig, sampleSupported])

/-! ## Deliver -/

/-- C3 (the code departs from the claim): a delivery to a host that refuses the
connection inserts its ledger row and returns the transport error, and the
only ledger call it makes is the insert: the row is never marked failed. -/
theorem Deliver_transport_error_not_marked :
    (sampleTransport.Deliver (sampleEnv false) aliceContext samplePayload inboxDown
        emptyWorld).1 = some "dial tcp: connection refused" ∧
    (sampleTransport.Deliver (sampleEnv false) aliceContext samplePayload inboxDown
        emptyWorld).2.trace.filter Event.isLedger =
      [Event.insertAttempt aliceContext "alice" inboxDown samplePayload] ∧
    (sampleTransport.Deliver (sampleEnv false) aliceContext samplePayload inboxDown
        emptyWorld).2.trace.any Event.isMarkFailure = false := by
  decide

/-- C4: a Deliver call that resolves an origin actor makes the ledger insert
(with that actor, the destination and the payload) as its first call, before
any signing, quota wait or HTTP request, and makes no second insert; when the
insert fails Deliver returns an error and makes no further call. -/
theorem Deliver_inserts_once_first {σ : Type} (env : Env σ) (t : transport) (c : Context)
    (b : Bytes) (to_ : url.URL) (w : World σ) (u : paths.UUID)
    (hu : c.UserPathUUID = .ok u) :
    ∃ rest : List Event,
      (t.Deliver env c b to_ w).2.trace = w.trace ++ Event.insertAttempt c u to_ b :: rest ∧
      (∀ e ∈ rest, e.isInsert = false) ∧
      (∀ e, (env.InsertAttempt c u to_ b w.st).1 = .error e →
        (t.Deliver env c b to_ w).1 = some ("failed to create delivery attempt: " ++ e) ∧
        rest = []) :=
  Deliver_trace_insert env t c b to_ w u hu

/-- C4 at a delivery by `alice` to a host that answers 201. -/
theorem Deliver_inserts_once_first_witness :
    ∃ rest : List Event,
      (sampleTransport.Deliver (sampleEnv false) aliceContext samplePayload inboxA
        emptyWorld).2.trace =
        emptyWorld.trace ++ Event.insertAttempt aliceContext "alice" inboxA samplePayload :: rest ∧
      (∀ e ∈ rest, e.isInsert = false) ∧
      (∀ e, ((sampleEnv false).InsertAttempt aliceContext "alice" inboxA samplePayload
          emptyWorld.st).1 = .error e →
        (sampleTransport.Deliver (sampleEnv false) aliceContext samplePayload inboxA
          emptyWorld).1 = some ("failed to create delivery attempt: " ++ e) ∧
        rest = []) :=
  Deliver_inserts_once_first (sampleEnv false) sampleTransport aliceContext samplePayload inboxA
    emptyWorld "alice" rfl

/-- C5: when the context carries no resolvable origin actor, Deliver returns an
error at once and leaves the world as it was: no ledger insert or mark, no
signing, no quota wait, no HTTP request. -/
theorem Deliver_without_user {σ : Type} (env : Env σ) (t : transport) (c : Context)
    (b : Bytes) (to_ : url.URL) (w : World σ) (e : String)
    (hu : c.UserPathUUID = .error e) :
    t.Deliver env c b to_ w =
      (some ("failed to determine user to deliver on behalf of: " ++ e), w) := by
  simp [transport.Deliver, transport.deliverSend, hu]

/-- C5 at a context without origin actor. -/
theorem Deliver_without_user_witness :
    sampleTransport.Deliver (sampleEnv false) anonymousContext samplePayload inboxA emptyWorld =
      (some ("failed to determine user to deliver on behalf of: " ++ "no user path UUID set"),
        emptyWorld) :=
  Deliver_without_user (sampleEnv false) sampleTransport anonymousContext samplePayload inboxA
    emptyWorld "no user path UUID set" rfl

/-- C6 as stated fails: a delivery by `alice` to a host that answers 201
Created, with every step up to the response succeeding, returns an error when
the ledger refuses to mark the attempt succeeded. -/
theorem Deliver_created_returns_error :
    (sampleTransport.deliverSend (sampleEnv true) aliceContext samplePayload inboxA
        emptyWorld).1 =
      .ok ("attempt-0", { StatusCode := 201, Status := "201 Created", Body := 7 }) ∧
    (sampleTransport.Deliver (sampleEnv true) aliceContext samplePayload inboxA
        emptyWorld).1 =
      some "failed to mark delivery as successful (attempt-0): ledger unavailable" ∧
    (sampleTransport.Deliver (sampleEnv true) aliceContext samplePayload inboxA
        emptyWorld).1 ≠ none := by
  decide

/-- C6, amended: when every step up to the response succeeds and the status is
200, 201 or 202, Deliver marks the inserted ledger entry succeeded, makes no
other ledger call after the insert (so never marks it failed), and returns no
error if that marking succeeds; if the marking fails it returns an error
carrying the attempt id and the marking error. -/
theorem Deliver_success_marks_succeeded {σ : Type} (env : Env σ) (t : transport)
    (c : Context) (b : Bytes) (to_ : url.URL) (w w1 : World σ) (id : String)
    (resp : http.Response)
    (hx : t.deliverSend env c b to_ w = (.ok (id, resp), w1))
    (hstatus : resp.StatusCode = 200 ∨ resp.StatusCode = 201 ∨ resp.StatusCode = 202) :
    ∃ (u : paths.UUID) (rest : List Event),
      c.UserPathUUID = .ok u ∧
      (env.InsertAttempt c u to_ b w.st).1 = .ok id ∧
      (t.Deliver env c b to_ w).2.trace = w.trace ++ Event.insertAttempt c u to_ b :: rest ∧
      rest.filter Event.isLedger = [Event.markSuccess c id] ∧
      ((env.MarkSuccessfulAttempt c id w1.st).1 = none → (t.Deliver env c b to_ w).1 = none) ∧
      (∀ e, (env.MarkSuccessfulAttempt c id w1.st).1 = some e →
        (t.Deliver env c b to_ w).1 =
          some ("failed to mark delivery as successful (" ++ id ++ "): " ++ e)) := by
  obtain ⟨u, rest1, hu, hid, htr, hflt⟩ := deliverSend_ok_ledger env t c b to_ w w1 id resp hx
  rw [Deliver_of_send_ok env t c b to_ w w1 id resp hx,
    handleDeliverResponse_success t resp to_ hstatus]
  refine ⟨u, rest1 ++ [Event.markSuccess c id, Event.bodyClose resp.Body], hu, hid, ?_, ?_, ?_, ?_⟩
  · simp [htr]
  · simp [List.filter_append, hflt, List.filter_cons, Event.isLedger]
  · intro h; simp [h]
  · intro e h; simp [h]

/-- C6, amended, at a delivery by `alice` to a host that answers 201 Created. -/
theorem Deliver_success_marks_succeeded_witness :
    ∃ (u : paths.UUID) (rest : List Event),
      aliceContext.UserPathUUID = .ok u ∧
      ((sampleEnv false).InsertAttempt aliceContext u inboxA samplePayload emptyWorld.st).1 =
        .ok "attempt-0" ∧
      (sampleTransport.Deliver (sampleEnv false) aliceContext samplePayload inboxA
        emptyWorld).2.trace =
        emptyWorld.trace ++ Event.insertAttempt aliceContext u inboxA samplePayload :: rest ∧
      rest.filter Event.isLedger = [Event.markSuccess aliceContext "attempt-0"] ∧
      (((sampleEnv false).MarkSuccessfulAttempt aliceContext "attempt-0"
          (sampleTransport.deliverSend (sampleEnv false) aliceContext samplePayload inboxA
            emptyWorld).2.st).1 = none →
        (sampleTransport.Deliver (sampleEnv false) aliceContext samplePayload inboxA
          emptyWorld).1 = none) ∧
      (∀ e, ((sampleEnv false).MarkSuccessfulAttempt aliceContext "attempt-0"
          (sampleTransport.deliverSend (sampleEnv false) aliceContext samplePayload inboxA
            emptyWorld).2.st).1 = some e →
        (sampleTransport.Deliver (sampleEnv false) aliceContext samplePayload inboxA
          emptyWorld).1 =
          some ("failed to mark delivery as successful (" ++ "attempt-0" ++ "): " ++ e)) :=
  Deliver_success_marks_succeeded (sampleEnv false) sampleTransport aliceContext samplePayload
    inboxA emptyWorld
    (sampleTransport.deliverSend (sampleEnv false) aliceContext samplePayload inboxA emptyWorld).2
    "attempt-0" { StatusCode := 201, Status := "201 Created", Body := 7 }
    (by decide) (by decide)

/-- C7: when the response status is none of 200, 201 and 202, Deliver marks the
inserted ledger entry failed, makes no other ledger call after the insert (so
never marks it succeeded), and returns an error whose message contains the
destination address and the decimal status code. -/
theorem Deliver_failure_marks_failed {σ : Type} (env : Env σ) (t : transport)
    (c : Context) (b : Bytes) (to_ : url.URL) (w w1 : World σ) (id : String)
    (resp : http.Response)
    (hx : t.deliverSend env c b to_ w = (.ok (id, resp), w1))
    (h200 : resp.StatusCode ≠ 200) (h201 : resp.StatusCode ≠ 201)
    (h202 : resp.StatusCode ≠ 202) :
    ∃ (u : paths.UUID) (rest : List Event) (msg : String),
      c.UserPathUUID = .ok u ∧
      (env.InsertAttempt c u to_ b w.st).1 = .ok id ∧
      (t.Deliver env c b to_ w).2.trace = w.trace ++ Event.insertAttempt c u to_ b :: rest ∧
      rest.filter Event.isLedger = [Event.markFailure c id] ∧
      (t.Deliver env c b to_ w).1 = some msg ∧
      Mentions msg to_.String ∧
      Mentions msg (toString resp.StatusCode) := by
  obtain ⟨u, rest1, hu, hid, htr, hflt⟩ := deliverSend_ok_ledger env t c b to_ w w1 id resp hx
  rw [Deliver_of_send_ok env t c b to_ w w1 id resp hx,
    handleDeliverResponse_failure t resp to_ h200 h201 h202]
  have hto : Mentions ("delivery [" ++ to_.String ++ "] failed with status (" ++
      toString resp.StatusCode ++ "): " ++ resp.Status) to_.String :=
    mentions_append_left _ (mentions_append_left _ (mentions_append_left _
      (mentions_append_left _ (mentions_append_right _ (mentions_self _)))))
  have hcode : Mentions ("delivery [" ++ to_.String ++ "] failed with status (" ++
      toString resp.StatusCode ++ "): " ++ resp.Status) (toString resp.StatusCode) :=
    mentions_append_left _ (mentions_append_left _ (mentions_append_right _ (mentions_self _)))
  cases hm : (env.MarkRetryFailureAttempt c id w1.st).1 with
  | none =>
    refine ⟨u, rest1 ++ [Event.markFailure c id, Event.bodyClose resp.Body], _, hu, hid,
      ?_, ?_, rfl, hto, hcode⟩
    · simp [htr]
    · simp [List.filter_append, hflt, List.filter_cons, Event.isLedger]
  | some err2 =>
    have hin : Mentions ("failed delivery and failed to mark as failure (" ++ id ++ "): [" ++
        ("delivery [" ++ to_.String ++ "] failed with status (" ++
          toString resp.StatusCode ++ "): " ++ resp.Status) ++ ", " ++ err2 ++ "]")
        ("delivery [" ++ to_.String ++ "] failed with status (" ++
          toString resp.StatusCode ++ "): " ++ resp.Status) :=
      mentions_append_left _ (mentions_append_left _ (mentions_append_left _
        (mentions_append_right _ (mentions_self _))))
    refine ⟨u, rest1 ++ [Event.markFailure c id, Event.bodyClose resp.Body], _, hu, hid,
      ?_, ?_, rfl, hin.trans hto, hin.trans hcode⟩
    · simp [htr]
    · simp [List.filter_append, hflt, List.filter_cons, Event.isLedger]

/-- C7 at a delivery by `alice` to a host that answers 500. -/
theorem Deliver_failure_marks_failed_witness :
    ∃ (u : paths.UUID) (rest : List Event) (msg : String),
      aliceContext.UserPathUUID = .ok u ∧
      ((sampleEnv false).InsertAttempt aliceContext u inboxB samplePayload emptyWorld.st).1 =
        .ok "attempt-0" ∧
      (sampleTransport.Deliver (sampleEnv false) aliceContext samplePayload inboxB
        emptyWorld).2.trace =
        emptyWorld.trace ++ Event.insertAttempt aliceContext u inboxB samplePayload :: rest ∧
      rest.filter Event.isLedger = [Event.markFailure aliceContext "attempt-0"] ∧
      (sampleTransport.Deliver (sampleEnv false) aliceContext samplePayload inboxB
        emptyWorld).1 = some msg ∧
      Mentions msg inboxB.String ∧
      Mentions msg (toString (500 : Int)) :=
  Deliver_failure_marks_failed (sampleEnv false) sampleTransport aliceContext samplePayload
    inboxB emptyWorld
    (sampleTransport.deliverSend (sampleEnv false) aliceContext samplePayload inboxB emptyWorld).2
    "attempt-0" { StatusCode := 500, Status := "500 Internal Server Error", Body := 7 }
    (by decide) (by decide) (by decide) (by decide)

/-- C8: when the status is not a success status and marking the entry failed
itself fails, the error Deliver returns contains both the delivery-failure
message and the marking error and differs from the delivery-failure message;
when the marking succeeds, Deliver returns the delivery-failure message alone. -/
theorem Deliver_failure_combined_error {σ : Type} (env : Env σ) (t : transport)
    (c : Context) (b : Bytes) (to_ : url.URL) (w w1 : World σ) (id : String)
    (resp : http.Response)
    (hx : t.deliverSend env c b to_ w = (.ok (id, resp), w1))
    (h200 : resp.StatusCode ≠ 200) (h201 : resp.StatusCode ≠ 201)
    (h202 : resp.StatusCode ≠ 202) :
    ∃ derr : String,
      t.handleDeliverResponse resp to_ = some derr ∧
      (∀ err2, (env.MarkRetryFailureAttempt c id w1.st).1 = some err2 →
        ∃ msg, (t.Deliver env c b to_ w).1 = some msg ∧
          Mentions msg derr ∧ Mentions msg err2 ∧ msg ≠ derr) ∧
      ((env.MarkRetryFailureAttempt c id w1.st).1 = none →
        (t.Deliver env c b to_ w).1 = some derr) := by
  refine ⟨_, handleDeliverResponse_failure t resp to_ h200 h201 h202, ?_, ?_⟩
  · intro err2 hm
    rw [Deliver_of_send_ok env t c b to_ w w1 id resp hx,
      handleDeliverResponse_failure t resp to_ h200 h201 h202]
    simp only [hm]
    refine ⟨_, rfl, ?_, ?_, ?_⟩
    · exact mentions_append_left _ (mentions_append_left _ (mentions_append_left _
        (mentions_append_right _ (mentions_self _))))
    · exact mentions_append_left _ (mentions_append_right _ (mentions_self _))
    · refine ne_of_longer _ ("failed delivery and failed to mark as failure (" ++ id ++ "): [")
        _ (", " ++ err2 ++ "]") ?_ ?_
      · simp [String.append_assoc]
      · simp only [String.length_append]
        have : 0 < "failed delivery and failed to mark as failure (".length := by decide
        omega
  · intro hm
    rw [Deliver_of_send_ok env t c b to_ w w1 id resp hx,
      handleDeliverResponse_failure t resp to_ h200 h201 h202]
    simp only [hm]

/-- C8 at a delivery by `alice` to a host that answers 500 while the ledger
refuses the marking. -/
theorem Deliver_failure_combined_error_witness :
    ∃ derr : String,
      sampleTransport.handleDeliverResponse
        { StatusCode := 500, Status := "500 Internal Server Error", Body := 7 } inboxB =
        some derr ∧
      (∀ err2, ((sampleEnv true).MarkRetryFailureAttempt aliceContext "attempt-0"
          (sampleTransport.deliverSend (sampleEnv true) aliceContext samplePayload inboxB
            emptyWorld).2.st).1 = some err2 →
        ∃ msg, (sampleTransport.Deliver (sampleEnv true) aliceContext samplePayload inboxB
            emptyWorld).1 = some msg ∧
          Mentions msg derr ∧ Mentions msg err2 ∧ msg ≠ derr) ∧
      (((sampleEnv true).MarkRetryFailureAttempt aliceContext "attempt-0"
          (sampleTransport.deliverSend (sampleEnv true) aliceContext samplePayload inboxB
            emptyWorld).2.st).1 = none →
        (sampleTransport.Deliver (sampleEnv true) aliceContext samplePayload inboxB
          emptyWorld).1 = some derr) :=
  Deliver_failure_combined_error (sampleEnv true) sampleTransport aliceContext samplePayload
    inboxB emptyWorld
    (sampleTransport.deliverSend (sampleEnv true) aliceContext samplePayload inboxB emptyWorld).2
    "attempt-0" { StatusCode := 500, Status := "500 Internal Server Error", Body := 7 }
    (by decide) (by decide) (by decide) (by decide)

/-! ## Dereference -/

/-- C9: Dereference returns a body with a nil error only on a response whose
status is exactly 200 (the body is then what ReadAll gives); on a response with
any other status it returns a nil body and an error whose message contains the
address and the decimal status code; and on every path each call it makes
leaves the delivery ledger alone. -/
theorem Dereference_exact_status {σ : Type} (env : Env σ) (t : transport) (c : Context)
    (iri : url.URL) (w : World σ) :
    (∀ body, (t.Dereference env c iri w).1 = (some body, none) →
      ∃ resp w1, t.dereferenceSend env c iri w = (.ok resp, w1) ∧ resp.StatusCode = 200 ∧
        (env.ReadAll resp.Body w1.st).1 = (body, none)) ∧
    (∀ resp w1, t.dereferenceSend env c iri w = (.ok resp, w1) → resp.StatusCode = 200 →
      (t.Dereference env c iri w).1 =
        (some (env.ReadAll resp.Body w1.st).1.1, (env.ReadAll resp.Body w1.st).1.2)) ∧
    (∀ resp w1, t.dereferenceSend env c iri w = (.ok resp, w1) → resp.StatusCode ≠ 200 →
      ∃ msg, (t.Dereference env c iri w).1 = (none, some msg) ∧
        Mentions msg iri.String ∧ Mentions msg (toString resp.StatusCode)) ∧
    (∃ evs : List Event,
      (t.Dereference env c iri w).2.trace = w.trace ++ evs ∧
      ∀ e ∈ evs, e.isLedger = false) := by
  obtain ⟨evs, htr, hled⟩ := dereferenceSend_trace env t c iri w
  rcases hx : t.dereferenceSend env c iri w with ⟨e0 | resp, w1⟩
  · rw [hx] at htr
    refine ⟨?_, ?_, ?_, evs, ?_, hled⟩
    · intro body h; simp [transport.Dereference, hx] at h
    · intro resp w2 h; simp at h
    · intro resp w2 h; simp at h
    · simpa [transport.Dereference, hx] using htr
  · rw [hx] at htr
    simp only at htr
    by_cases hs : resp.StatusCode = 200
    · have hh := handleDereferenceResponse_ok t resp iri hs
      refine ⟨?_, ?_, ?_, evs ++ [Event.readAll resp.Body, Event.bodyClose resp.Body], ?_, ?_⟩
      · intro body h
        refine ⟨resp, w1, rfl, hs, ?_⟩
        simp only [transport.Dereference, hx, hh, Prod.mk.injEq, Option.some.injEq] at h
        exact Prod.ext h.1 h.2
      · intro resp2 w2 h _
        simp only [Prod.mk.injEq, Except.ok.injEq] at h
        obtain ⟨rfl, rfl⟩ := h
        simp [transport.Dereference, hx, hh]
      · intro resp2 w2 h hne
        simp only [Prod.mk.injEq, Except.ok.injEq] at h
        obtain ⟨rfl, rfl⟩ := h
        exact absurd hs hne
      · simp [transport.Dereference, hx, hh, bodyClose, htr]
      · intro e he
        rcases List.mem_append.mp he with h | h
        · exact hled e h
        · simp at h; rcases h with rfl | rfl <;> rfl
    · have hh := handleDereferenceResponse_failure t resp iri hs
      refine ⟨?_, ?_, ?_, evs ++ [Event.bodyClose resp.Body], ?_, ?_⟩
      · intro body h; simp [transport.Dereference, hx, hh] at h
      · intro resp2 w2 h heq
        simp only [Prod.mk.injEq, Except.ok.injEq] at h
        obtain ⟨rfl, rfl⟩ := h
        exact absurd heq hs
      · intro resp2 w2 h _
        simp only [Prod.mk.injEq, Except.ok.injEq] at h
        obtain ⟨rfl, rfl⟩ := h
        refine ⟨"url IRI dereference [" ++ iri.String ++ "] failed with status (" ++
          toString resp.StatusCode ++ "): " ++ resp.Status,
          by simp [transport.Dereference, hx, hh], ?_, ?_⟩
        · exact mentions_append_left _ (mentions_append_left _ (mentions_append_left _
            (mentions_append_left _ (mentions_append_right _ (mentions_self _)))))
        · exact mentions_append_left _ (mentions_append_left _
            (mentions_append_right _ (mentions_self _)))
      · simp [transport.Dereference, hx, hh, bodyClose, htr]
      · intro e he
        rcases List.mem_append.mp he with h | h
        · exact hled e h
        · simp at h; subst h; rfl

/-- C9 at a fetch from a host that answers 201 Created: no body, and an error
that names the address and the status. -/
theorem Dereference_exact_status_witness :
    ∃ msg, (sampleTransport.Dereference (sampleEnv false) aliceContext inboxA emptyWorld).1 =
        (none, some msg) ∧
      Mentions msg inboxA.String ∧ Mentions msg (toString (201 : Int)) :=
  (Dereference_exact_status (sampleEnv false) sampleTransport aliceContext inboxA
    emptyWorld).2.2.1
    { StatusCode := 201, Status := "201 Created", Body := 7 }
    (sampleTransport.dereferenceSend (sampleEnv false) aliceContext inboxA emptyWorld).2
    (by decide) (by decide)

/-! ## BatchDeliver -/

/-- C11 (the code departs from the claim): in a delivery and in a fetch made
with the context of `alice`, the quota wait is called with that context, but the
request handed to the HTTP client is bound to the background context, which
is not the caller's: the result of `req.WithContext(c)` is dropped. -/
theorem request_not_bound_to_caller_context :
    (sampleTransport.Deliver (sampleEnv false) aliceContext samplePayload inboxA
        emptyWorld).2.trace.filterMap Event.waitCtx = [aliceContext] ∧
    (sampleTransport.Deliver (sampleEnv false) aliceContext samplePayload inboxA
        emptyWorld).2.trace.filterMap Event.doCtx = [Context.Background] ∧
    (sampleTransport.Dereference (sampleEnv false) aliceContext actorOk
        emptyWorld).2.trace.filterMap Event.waitCtx = [aliceContext] ∧
    (sampleTransport.Dereference (sampleEnv false) aliceContext actorOk
        emptyWorld).2.trace.filterMap Event.doCtx = [Context.Background] ∧
    Context.Background ≠ aliceContext := by
  decide

/-- C12: on a Controller that NewController returned with a nil error,
GetFirstAlgorithm is defined (index 0 is in range) and is the first signature
algorithm of the configuration. -/
theorem GetFirstAlgorithm_defined (sup : String → Bool) (c : config.Config) (tc : Controller)
    (h : NewController sup c = (some tc, none)) :
    ∃ a : httpsig.Algorithm,
      tc.GetFirstAlgorithm = some a ∧
      c.ActivityPubConfig.HttpSignaturesConfig.Algorithms[0]? = some a := by
  by_cases h1 : c.ActivityPubConfig.OutboundRateLimitQPS ≤ 0
  · simp [NewController, h1] at h
  by_cases h2 : c.ActivityPubConfig.OutboundRateLimitBurst ≤ 0
  · simp [NewController, h1, h2] at h
  by_cases h3 : c.ActivityPubConfig.HttpSignaturesConfig.Algorithms.length = 0
  · simp [NewController, h1, h2, h3] at h
  simp only [NewController, if_neg h1, if_neg h2, if_neg h3] at h
  split at h
  · simp at h
  split at h
  · simp at h
  split at h
  · simp at h
  simp only [Prod.mk.injEq, Option.some.injEq] at h
  obtain ⟨htc, -⟩ := h
  subst htc
  cases halg : c.ActivityPubConfig.HttpSignaturesConfig.Algorithms with
  | nil => simp [halg] at h3
  | cons a rest => exact ⟨a, by simp [Controller.GetFirstAlgorithm, halg], by simp⟩

/-- C12 at `sampleConfig`. -/
theorem GetFirstAlgorithm_defined_witness :
    ∃ a : httpsig.Algorithm,
      Controller.GetFirstAlgorithm
        { algs := ["rsa-sha256", "rsa-sha512"]
          digestAlg := "SHA-256"
          getHeaders := ["(request-target)", "Date"]
          postHeaders := ["(request-target)", "Date", "Digest"]
          hl := newHostLimiter sampleConfig } = some a ∧
      sampleConfig.ActivityPubConfig.HttpSignaturesConfig.Algorithms[0]? = some a :=
  GetFirstAlgorithm_defined sampleSupported sampleConfig _ (by decide)

/-- C13: every SignRequest call of Deliver uses the POST signer and is made
while the transport's postSignerMu is held, every SignRequest call of
Dereference uses the GET signer and is made while its getSignerMu is held, on
every path no mutex is held when the method returns, and the two mutexes
newTransport allocates for a transport are different and its own. -/
theorem signing_under_own_mutex {σ : Type} (env : Env σ) (t : transport) (c : Context)
    (b : Bytes) (to_ iri : url.URL) (w : World σ) :
    (∃ evs : List Event,
      (t.Deliver env c b to_ w).2.trace = w.trace ++ evs ∧
      signsUnder t.postSignerMu t.postSigner [] evs = true ∧
      heldAfter [] evs = []) ∧
    (∃ evs : List Event,
      (t.Dereference env c iri w).2.trace = w.trace ++ evs ∧
      signsUnder t.getSignerMu t.getSigner [] evs = true ∧
      heldAfter [] evs = []) ∧
    (∀ (fresh : Nat) (getSigner postSigner : Signer) (privKey pubKeyId : String)
        (tc : Controller) (t2 : transport),
      (newTransport fresh getSigner postSigner privKey pubKeyId tc).1 = some t2 →
      t2.getSignerMu ≠ t2.postSignerMu ∧
      t2.getSignerMu.owner = fresh ∧ t2.postSignerMu.owner = fresh) := by
  refine ⟨?_, ?_, ?_⟩
  · obtain ⟨evs, htr, hs, hh⟩ := deliverSend_locks env t c b to_ w
    rcases hx : t.deliverSend env c b to_ w with ⟨e0 | ⟨id, resp⟩, w1⟩
    · rw [hx] at htr
      rw [Deliver_of_send_error env t c b to_ w w1 e0 hx]
      exact ⟨evs, htr, hs, hh⟩
    · rw [hx] at htr
      simp only at htr
      rw [Deliver_of_send_ok env t c b to_ w w1 id resp hx]
      cases t.handleDeliverResponse resp to_ with
      | some err =>
        refine ⟨evs ++ [Event.markFailure c id, Event.bodyClose resp.Body], ?_, ?_, ?_⟩
        · simp [htr]
        · simp [signsUnder_append, hs, hh, signsUnder]
        · simp [heldAfter_append, hh, heldAfter]
      | none =>
        refine ⟨evs ++ [Event.markSuccess c id, Event.bodyClose resp.Body], ?_, ?_, ?_⟩
        · simp [htr]
        · simp [signsUnder_append, hs, hh, signsUnder]
        · simp [heldAfter_append, hh, heldAfter]
  · obtain ⟨evs, htr, hs, hh⟩ := dereferenceSend_locks env t c iri w
    rcases hx : t.dereferenceSend env c iri w with ⟨e0 | resp, w1⟩
    · rw [hx] at htr
      exact ⟨evs, by simpa [transport.Dereference, hx] using htr, hs, hh⟩
    · rw [hx] at htr
      simp only at htr
      cases hh2 : t.handleDereferenceResponse resp iri with
      | some e =>
        refine ⟨evs ++ [Event.bodyClose resp.Body], ?_, ?_, ?_⟩
        · simp [transport.Dereference, hx, hh2, bodyClose, htr]
        · simp [signsUnder_append, hs, hh, signsUnder]
        · simp [heldAfter_append, hh, heldAfter]
      | none =>
        refine ⟨evs ++ [Event.readAll resp.Body, Event.bodyClose resp.Body], ?_, ?_, ?_⟩
        · simp [transport.Dereference, hx, hh2, bodyClose, htr]
        · simp [signsUnder_append, hs, hh, signsUnder]
        · simp [heldAfter_append, hh, heldAfter]
  · intro fresh gs ps pk kid tc t2 h
    simp only [newTransport, Option.some.injEq] at h
    subst h
    simp

/-- C13 at a delivery whose signer refuses to sign: Deliver returns the signing
error, the one SignRequest call was made under the POST signer mutex, and no
mutex is held afterwards. -/
theorem signing_under_own_mutex_witness :
    (sampleTransport.Deliver signFailEnv aliceContext samplePayload inboxA emptyWorld).1 =
      some "unsupported key type" ∧
    ∃ evs : List Event,
      (sampleTransport.Deliver signFailEnv aliceContext samplePayload inboxA
        emptyWorld).2.trace = emptyWorld.trace ++ evs ∧
      signsUnder sampleTransport.postSignerMu sampleTransport.postSigner [] evs = true ∧
      heldAfter [] evs = [] :=
  ⟨by decide,
    (signing_under_own_mutex signFailEnv sampleTransport aliceContext samplePayload inboxA
      actorOk emptyWorld).1⟩

/-! ## Node statistics -/

/-- C14 (the code departs from the claim): with v = 10, max = 8 and the draws 1
and 1/2 the first sample is round(1/2 + (1 * 2 + 10)) = 13; the loop stops on
it and getWithUncertainty returns 13, which is above max. -/
theorem getWithUncertainty_above_max :
    (services.sampleNode.getWithUncertainty 10 2 1 8).map Prod.fst = some 13 ∧
    ¬ ((13 : Int) ≤ 8) := by
  decide!

/-- C16: maybeGetWithUncertainty returns every v >= 50 unchanged and leaves the
random source as it was; applyNoise leaves each of TotalUsers, ActiveHalfYear,
ActiveMonth and ActiveWeek unchanged when its value is at least 50, and always
leaves NLocalPosts and NLocalComments unchanged. -/
theorem applyNoise_only_below_threshold :
    (∀ (n : services.NodeInfo) (v : Int) (s1 s2 : ℚ) (max : Int), 50 ≤ v →
      n.maybeGetWithUncertainty v s1 s2 max = some (v, n)) ∧
    (∀ (n n2 : services.NodeInfo) (t t2 : services.NodeInfoStats),
      n.applyNoise t = some (t2, n2) →
      (50 ≤ t.TotalUsers → t2.TotalUsers = t.TotalUsers) ∧
      (50 ≤ t.ActiveHalfYear → t2.ActiveHalfYear = t.ActiveHalfYear) ∧
      (50 ≤ t.ActiveMonth → t2.ActiveMonth = t.ActiveMonth) ∧
      (50 ≤ t.ActiveWeek → t2.ActiveWeek = t.ActiveWeek) ∧
      t2.NLocalPosts = t.NLocalPosts ∧
      t2.NLocalComments = t.NLocalComments) := by
  refine ⟨services.maybeGetWithUncertainty_of_ge, ?_⟩
  intro n n2 t t2 h
  unfold services.NodeInfo.applyNoise at h
  simp only at h
  split at h
  · simp at h
  rename_i x1 n1 h1
  split at h
  · simp at h
  rename_i x2 n3 h2
  split at h
  · simp at h
  rename_i x3 n4 h3
  split at h
  · simp at h
  rename_i x4 n5 h4
  simp only [Option.some.injEq, Prod.mk.injEq] at h
  obtain ⟨rfl, rfl⟩ := h
  refine ⟨?_, ?_, ?_, ?_, rfl, rfl⟩
  · intro hv
    exact services.maybeGetWithUncertainty_eq_of_ge _ _ _ _ _ _ _ hv h1
  · intro hv
    exact services.maybeGetWithUncertainty_eq_of_ge _ _ _ _ _ _ _ hv h2
  · intro hv
    exact services.maybeGetWithUncertainty_eq_of_ge _ _ _ _ _ _ _ hv h3
  · intro hv
    exact services.maybeGetWithUncertainty_eq_of_ge _ _ _ _ _ _ _ hv h4

/-- C16 at statistics with user counts 120, 60, 20 and 5: the first two are kept,
the last two are redrawn (to 23 and 3), the post and comment counts are kept. -/
theorem applyNoise_only_below_threshold_witness :
    services.sampleNode.applyNoise services.sampleStats =
      some ({ TotalUsers := 120, ActiveHalfYear := 60, ActiveMonth := 23, ActiveWeek := 3,
              NLocalPosts := 40, NLocalComments := 5 },
            { services.sampleNode with Rand := [0, 0] }) ∧
    ((50 ≤ services.sampleStats.TotalUsers → (120 : Int) = services.sampleStats.TotalUsers) ∧
      (50 ≤ services.sampleStats.ActiveHalfYear →
        (60 : Int) = services.sampleStats.ActiveHalfYear) ∧
      (50 ≤ services.sampleStats.ActiveMonth → (23 : Int) = services.sampleStats.ActiveMonth) ∧
      (50 ≤ services.sampleStats.ActiveWeek → (3 : Int) = services.sampleStats.ActiveWeek) ∧
      (40 : Int) = services.sampleStats.NLocalPosts ∧
      (5 : Int) = services.sampleStats.NLocalComments) :=
  ⟨by decide!,
    applyNoise_only_below_threshold.2 services.sampleNode
      { services.sampleNode with Rand := [0, 0] } services.sampleStats
      { TotalUsers := 120, ActiveHalfYear := 60, ActiveMonth := 23, ActiveWeek := 3,
        NLocalPosts := 40, NLocalComments := 5 } (by decide!)⟩

/-! ## Accepting and rejecting a Follow -/

/-- C17: when the user's IRI is not the id of any object of the stored Follow
(a Follow without object property included), SendAcceptFollow and
SendRejectFollow return an error having made no call but the read of the
Follow: no Send, no prepend; and in every run of SendAcceptFollow each prepend
to the followers collection comes after a Send that returned no error. -/
theorem follow_reply_only_when_addressed {σ : Type} (env : FrameworkEnv σ) (f : Framework)
    (ctx : Context) (userID : paths.UUID) (followIRI : url.URL) (w : FrameworkWorld σ) :
    (NotAddressedTo env ctx followIRI (f.UserIRI env userID) w.st →
      (∃ e, f.SendAcceptFollow env ctx userID followIRI w =
        (Outcome.returned (some e),
          { st := (env.DataGet ctx followIRI w.st).2
            trace := w.trace ++ [FrameworkEvent.dataGet followIRI] })) ∧
      (∃ e, f.SendRejectFollow env ctx userID followIRI w =
        (Outcome.returned (some e),
          { st := (env.DataGet ctx followIRI w.st).2
            trace := w.trace ++ [FrameworkEvent.dataGet followIRI] }))) ∧
    (∃ evs : List FrameworkEvent,
      (f.SendAcceptFollow env ctx userID followIRI w).2.trace = w.trace ++ evs ∧
      prependsAfterSend false evs = true) := by
  have hw := getValidFollow_world env f ctx (f.UserIRI env userID) followIRI w
  refine ⟨?_, ?_⟩
  · intro hna
    obtain ⟨e, he⟩ := getValidFollow_not_addressed env f ctx (f.UserIRI env userID) followIRI w hna
    have hpair : f.getValidFollow env ctx (f.UserIRI env userID) followIRI w =
        (.error e, { st := (env.DataGet ctx followIRI w.st).2
                     trace := w.trace ++ [FrameworkEvent.dataGet followIRI] }) :=
      Prod.ext he hw
    exact ⟨⟨e, by simp [Framework.SendAcceptFollow, hpair]⟩,
      ⟨e, by simp [Framework.SendRejectFollow, hpair]⟩⟩
  · unfold Framework.SendAcceptFollow
    rcases hv : f.getValidFollow env ctx (f.UserIRI env userID) followIRI w with
      ⟨e | follow, w1⟩
    · rw [hv] at hw
      simp only at hw
      simp only [hv]
      exact ⟨[FrameworkEvent.dataGet followIRI], by simp [hw], by simp [prependsAfterSend]⟩
    · rw [hv] at hw
      simp only at hw
      simp only [hv]
      cases follow.actor with
      | none =>
        exact ⟨[FrameworkEvent.dataGet followIRI], by simp [hw], by simp [prependsAfterSend]⟩
      | some followActors =>
        simp only
        cases actorIds followActors with
        | error e =>
          exact ⟨[FrameworkEvent.dataGet followIRI], by simp [hw], by simp [prependsAfterSend]⟩
        | ok ids =>
          simp only
          obtain ⟨hserr, hsok⟩ := Send_trace env f ctx userID
            { typeName := "Accept", actor := [f.UserIRI env userID], object := [followIRI],
              to_ := ids } w1
          rcases hs : f.Send env ctx userID
            { typeName := "Accept", actor := [f.UserIRI env userID], object := [followIRI],
              to_ := ids } w1 with ⟨_ | e, w2⟩
          · rw [hs] at hsok
            obtain ⟨c2, o, htr⟩ := hsok rfl
            simp only at htr
            obtain ⟨ps, hps⟩ := prependFollowers_trace env ctx
              (env.UserIRIFor f.scheme f.host paths.PathKey.FollowersPathKey userID)
              followActors w2
            refine ⟨FrameworkEvent.dataGet followIRI :: FrameworkEvent.actorSend c2 o
              { typeName := "Accept", actor := [f.UserIRI env userID], object := [followIRI],
                to_ := ids } none :: ps, ?_, ?_⟩
            · simp only [hps, htr, hw]
              simp
            · simp [prependsAfterSend, prependsAfterSend_sent]
          · rw [hs] at hserr
            rcases hserr e rfl with htr | ⟨c2, o, htr⟩
            · simp only at htr
              exact ⟨[FrameworkEvent.dataGet followIRI], by simp [htr, hw],
                by simp [prependsAfterSend]⟩
            · simp only at htr
              exact ⟨[FrameworkEvent.dataGet followIRI, FrameworkEvent.actorSend c2 o
                { typeName := "Accept", actor := [f.UserIRI env userID],
                  object := [followIRI], to_ := ids } (some e)],
                by simp [htr, hw], by simp [prependsAfterSend]⟩

/-- C17 at `alice` replying to a Follow whose object is `bob`: both replies are
refused with an error and only the Follow was read; and when `bob` accepts it,
the one prepend comes after the Send. -/
theorem follow_reply_only_when_addressed_witness :
    ((∃ e, sampleFramework.SendAcceptFollow sampleFrameworkEnv aliceContext "alice" followIRI
        emptyFrameworkWorld =
        (Outcome.returned (some e),
          { st := (sampleFrameworkEnv.DataGet aliceContext followIRI emptyFrameworkWorld.st).2
            trace := emptyFrameworkWorld.trace ++ [FrameworkEvent.dataGet followIRI] })) ∧
      (∃ e, sampleFramework.SendRejectFollow sampleFrameworkEnv aliceContext "alice" followIRI
        emptyFrameworkWorld =
        (Outcome.returned (some e),
          { st := (sampleFrameworkEnv.DataGet aliceContext followIRI emptyFrameworkWorld.st).2
            trace := emptyFrameworkWorld.trace ++ [FrameworkEvent.dataGet followIRI] }))) ∧
    (∃ evs : List FrameworkEvent,
      (sampleFramework.SendAcceptFollow sampleFrameworkEnv aliceContext "bob" followIRI
        emptyFrameworkWorld).2.trace = emptyFrameworkWorld.trace ++ evs ∧
      prependsAfterSend false evs = true) ∧
    (sampleFramework.SendAcceptFollow sampleFrameworkEnv aliceContext "bob" followIRI
        emptyFrameworkWorld).1 = Outcome.returned none ∧
    (sampleFramework.SendAcceptFollow sampleFrameworkEnv aliceContext "bob" followIRI
        emptyFrameworkWorld).2.trace.map
        (fun e => (FrameworkEvent.isSend e, FrameworkEvent.isPrepend e)) =
      [(false, false), (true, false), (false, true)] :=
  ⟨(follow_reply_only_when_addressed sampleFrameworkEnv sampleFramework aliceContext "alice"
      followIRI emptyFrameworkWorld).1
      (by
        intro stored follow obj hget hconv hobj item hitem id hid
        simp only [sampleFrameworkEnv, Except.ok.injEq] at hget hconv
        subst hget
        simp only [Except.ok.injEq] at hconv
        subst hconv
        simp only [followOfBob, Option.some.injEq] at hobj
        subst hobj
        simp only [List.mem_singleton] at hitem
        subst hitem
        simp only [Except.ok.injEq] at hid
        subst hid
        decide),
    (follow_reply_only_when_addressed sampleFrameworkEnv sampleFramework aliceContext "bob"
      followIRI emptyFrameworkWorld).2,
    by decide, by decide⟩

end Apcore
